import Mathlib

/-!
Shallow embedding of the coordination core of the multi-modal
virtual-interaction system (event bus, action mapper, and the per-modality
debounce state machines), translated from `src/event_bus.py`,
`src/action_mapper.py`, `src/eye_module.py`, `src/gesture_module.py` and
`src/config.py`.

Modelling conventions:
* wall-clock times (`time.time()`) are rationals; each Python call that reads
  the clock receives the reading as an explicit `now`/`t` argument;
* external effects (pyautogui calls, listener callbacks, printing, logging)
  are abstracted: whether an external call raises is an explicit boolean
  input, and emitted events are returned as values instead of being pushed
  to the global bus;
* Python dictionaries keyed by strings with a default of `0`/absent are
  total functions `String → ℚ` / `String → Bool` updated pointwise.
-/

namespace AVI

/-- Source tag strings used by the modality modules (`"eye"`, `"gesture"`,
`"voice"`, `"system"`). -/
def src_eye : String := "eye"

def src_gesture : String := "gesture"

def src_voice : String := "voice"

def src_system : String := "system"

/-- Drop reason logged by `EventBus._emit_blocked_event` for the pause gate. -/
def reason_system_paused : String := "system_paused"

/-- Drop reason logged for the conflict-resolution gate. -/
def reason_conflict : String := "conflict_resolution"

/-- Event types, from the `EventType` enum in `src/event_bus.py`. -/
inductive EventType where
  | EYE_GAZE_LEFT
  | EYE_GAZE_RIGHT
  | EYE_GAZE_CENTER
  | EYE_BLINK
  | EYE_DOUBLE_BLINK
  | EYE_TRIPLE_BLINK
  | GESTURE_DETECTED
  | GESTURE_PINCH
  | GESTURE_PEACE
  | GESTURE_PAUSE
  | VOICE_COMMAND
  | VOICE_INTENT
  | ACTION_REQUESTED
  | ACTION_EXECUTED
  | ACTION_BLOCKED
  | SYSTEM_PAUSE
  | SYSTEM_RESUME
  deriving DecidableEq

/-- Unified event structure (`Event` dataclass in `src/event_bus.py`).
Of the payload dictionary `data` only the `"action"` key is ever consulted
by the bus, so the payload is modelled as that optional entry. -/
structure Event where
  event_type : EventType
  source : String
  data_action : Option String
  timestamp : ℚ
  priority : ℤ
  deriving DecidableEq

/-- Queue capacity: `EventBus.__init__(max_queue_size=100)` (the global bus
is constructed with the default). -/
def max_queue_size : ℕ := 100

/-- Configuration `SYSTEM_CONFIG["allow_simultaneous"]["eye_gesture"]` from
`src/config.py`. -/
def allow_simultaneous_eye_gesture : Bool := true

/-- Mutable state of `EventBus`: the bounded queue, the pause flag,
`last_event_time` (dict with default reading `0`), `last_action_time`, and
`active_sources` (a set, modelled as its membership predicate). Listener
and action-callback registries are kept in `BusEnv` since the claims never
mutate them. -/
structure BusState where
  event_queue : List Event
  system_paused : Bool
  last_event_time : String → ℚ
  last_action_time : ℚ
  active_sources : String → Bool

/-- Bus state right after `EventBus.__init__`. -/
def initial_bus : BusState :=
  { event_queue := []
    system_paused := false
    last_event_time := fun _ => 0
    last_action_time := 0
    active_sources := fun _ => false }

/-- Registered action callbacks of the bus, and whether an invoked callback
raises (the callback body is external code). -/
structure BusEnv where
  action_registered : String → Bool
  callback_raises : Bool

/-- Translation of `EventBus.emit_event`: a non-blocking `put` into the
bounded queue; only when the `put` succeeds are `last_event_time[source]`
and `active_sources` updated; on `queue.Full` the event is dropped and the
call returns `False`. -/
def emit_event (s : BusState) (e : Event) : BusState × Bool :=
  if max_queue_size ≤ s.event_queue.length then
    (s, false)
  else
    ({ s with
        event_queue := s.event_queue ++ [e]
        last_event_time := fun src =>
          if src = e.source then e.timestamp else s.last_event_time src
        active_sources := fun src =>
          if src = e.source then true else s.active_sources src }, true)

/-- Translation of `EventBus._should_process_event` (the conflict-resolution
predicate): voice always passes; a non-voice event arriving while
`time.time() - last_event_time["voice"] < 0.5` is rejected; an eye event is
rejected while `"gesture"` is in `active_sources` unless the
`eye_gesture` simultaneity policy is enabled. -/
def should_process_event (now : ℚ) (s : BusState) (e : Event) : Bool :=
  if e.source = src_voice then true
  else if now - s.last_event_time src_voice < 1/2 then false
  else if e.source = src_eye ∧ s.active_sources src_gesture
          ∧ allow_simultaneous_eye_gesture = false then false
  else true

/-- Outcome of one iteration of the consumer loop on a dequeued event. -/
inductive HandleResult where
  | dropped (reason : String)
  | toggled
  | processed
  deriving DecidableEq

/-- Translation of `EventBus._execute_action` as invoked at the end of
`_handle_event` when the payload carries an `"action"` key: if a callback is
registered for the action and the callback returns normally,
`last_action_time` is set to the current clock reading; a raising callback
is caught and leaves the state unchanged. -/
def bus_execute_action (env : BusEnv) (now : ℚ) (s : BusState)
    (action : String) : BusState :=
  if env.action_registered action ∧ env.callback_raises = false then
    { s with last_action_time := now }
  else s

/-- Translation of `EventBus._handle_event`, the body of the single consumer
loop, in source order: (1) the pause gate (`system_paused` and non-voice
source ⇒ drop with reason `"system_paused"`), (2) the `GESTURE_PAUSE` check
(toggle `system_paused` and return), (3) conflict resolution via
`_should_process_event` (drop with reason `"conflict_resolution"`),
(4) listener notification (external, no bus-state effect) and action
execution. -/
def handle_event (env : BusEnv) (now : ℚ) (s : BusState) (e : Event) :
    BusState × HandleResult :=
  if s.system_paused ∧ e.source ≠ src_voice then
    (s, .dropped reason_system_paused)
  else if e.event_type = EventType.GESTURE_PAUSE then
    ({ s with system_paused := !s.system_paused }, .toggled)
  else if should_process_event now s e = false then
    (s, .dropped reason_conflict)
  else
    (match e.data_action with
      | some a => bus_execute_action env now s a
      | none => s, .processed)

/-- Kind tag of a static action-table entry (`"hotkey"`, `"press"`,
`"click"`, `"custom"`); the four keys of `ActionMapper.executors`. -/
inductive ExecKind where
  | hotkey
  | press
  | click
  | custom
  deriving DecidableEq

/-- Static action table `ACTION_MAPPINGS` from `src/config.py`: action name
↦ (executor kind, payload keys). -/
def ACTION_MAPPINGS : List (String × ExecKind × List String) :=
  [("next_tab", .hotkey, ["ctrl", "tab"]),
   ("previous_tab", .hotkey, ["ctrl", "shift", "tab"]),
   ("close_tab", .hotkey, ["ctrl", "w"]),
   ("new_tab", .hotkey, ["ctrl", "t"]),
   ("close_window", .hotkey, ["alt", "f4"]),
   ("minimize", .hotkey, ["winleft", "down"]),
   ("maximize", .hotkey, ["winleft", "up"]),
   ("show_desktop", .hotkey, ["winleft", "d"]),
   ("copy", .hotkey, ["ctrl", "c"]),
   ("paste", .hotkey, ["ctrl", "v"]),
   ("cut", .hotkey, ["ctrl", "x"]),
   ("select_all", .hotkey, ["ctrl", "a"]),
   ("undo", .hotkey, ["ctrl", "z"]),
   ("redo", .hotkey, ["ctrl", "shift", "z"]),
   ("play_pause", .press, ["playpause"]),
   ("volume_up", .press, ["volumeup"]),
   ("volume_down", .press, ["volumedown"]),
   ("mute", .press, ["volumemute"]),
   ("screenshot", .press, ["printscreen"]),
   ("escape", .press, ["esc"]),
   ("enter", .press, ["enter"]),
   ("backspace", .press, ["backspace"])]

/-- Record appended by `ActionMapper._record_action`. -/
structure ActionRecord where
  action : String
  source : String
  time : ℚ
  details : Option String
  deriving DecidableEq

/-- Translation of the body of `ActionMapper._record_action` acting on the
history list: append, then `pop(0)` once the length exceeds 100. -/
def record_action (h : List ActionRecord) (r : ActionRecord) :
    List ActionRecord :=
  let h2 := h ++ [r]
  if 100 < h2.length then h2.tail else h2

/-- Translation of `ActionMapper.get_action_history`, which returns the
Python slice `action_history[-limit:]`: for `limit ≥ 1` this is the
`min limit length` most recent records, but for `limit = 0` the slice
`[-0:]` equals `[0:]` and returns the entire history. -/
def get_action_history (h : List ActionRecord) (limit : ℕ) :
    List ActionRecord :=
  if limit = 0 then h else h.drop (h.length - limit)

/-- Mutable state of `ActionMapper` relevant to the claims. -/
structure MapperState where
  last_action_time : ℚ
  action_history : List ActionRecord

/-- Mapper state right after `ActionMapper.__init__`. -/
def mapper_init : MapperState :=
  { last_action_time := 0, action_history := [] }

/-- Registered custom action handlers (`ActionMapper.action_callbacks`),
modelled by their membership predicate; handler bodies are external. -/
structure MapperEnv where
  custom : String → Bool

/-- Translation of `ActionMapper._check_cooldown`: at least 200 ms must have
elapsed since `last_action_time`. -/
def check_cooldown (s : MapperState) (now : ℚ) : Bool :=
  decide (1/5 ≤ now - s.last_action_time)

/-- Result of one external input-injection call (pyautogui); the boolean
input says whether the call raises. -/
def pyautogui_call (raises : Bool) : Except Unit Unit :=
  if raises then .error () else .ok ()

/-- Translation of `ActionMapper._execute_hotkey` / `_execute_press` /
`_execute_click` / `_execute_custom`: each wraps its external call in its
own `try/except` that catches, prints and swallows the exception, so the
helper itself always returns normally. -/
def run_executor (_kind : ExecKind) (raises : Bool) : Except Unit Unit :=
  match pyautogui_call raises with
  | .ok _ => .ok ()
  | .error _ => .ok ()

/-- Arguments of one `execute_action` call together with the clock reading
at that call and whether the external call made on its behalf (custom
handler body, or pyautogui effect) raises. -/
structure Call where
  action_name : String
  source : String
  details : Option String
  now : ℚ
  raises : Bool
  deriving DecidableEq

/-- Translation of `ActionMapper.execute_action`:
1.  cooldown check — blocked calls return `False` with no state change;
2.  a registered custom handler is invoked; on normal return the action is
    recorded and the call returns `True` (note: `last_action_time` is NOT
    updated on this path); a raising handler is caught and yields `False`;
3.  otherwise the name is resolved in `ACTION_MAPPINGS`; unknown names
    return `False`;
4.  the executor helper runs (it never raises, its inner `try` swallows the
    effect exception), then `last_action_time` is set, the action recorded,
    and the call returns `True`; the outer `except` would convert an
    escaping exception into `False`. -/
def execute_action (env : MapperEnv) (s : MapperState) (c : Call) :
    MapperState × Bool :=
  let rec_entry : ActionRecord := ⟨c.action_name, c.source, c.now, c.details⟩
  if check_cooldown s c.now = false then
    (s, false)
  else if env.custom c.action_name then
    if c.raises then (s, false)
    else
      ({ s with action_history := record_action s.action_history rec_entry },
        true)
  else
    match ACTION_MAPPINGS.lookup c.action_name with
    | none => (s, false)
    | some (kind, _) =>
      match run_executor kind c.raises with
      | .ok _ =>
        ({ last_action_time := c.now
           action_history := record_action s.action_history rec_entry }, true)
      | .error _ => (s, false)

/-- Fold of `execute_action` over a sequence of calls. -/
def mapper_run (env : MapperEnv) (s : MapperState) (cs : List Call) :
    MapperState :=
  cs.foldl (fun s c => (execute_action env s c).1) s

/-- Calls resolved through the static action table (not intercepted by a
registered custom handler). -/
def is_table_call (env : MapperEnv) (c : Call) : Bool :=
  env.custom c.action_name = false ∧ (ACTION_MAPPINGS.lookup c.action_name).isSome

/-- Configuration `EYE_CONFIG["blink_threshold"]` (0.25). -/
def blink_threshold : ℚ := 1/4

/-- Configuration `EYE_CONFIG["double_blink_window"]` (0.5 s). -/
def double_blink_window : ℚ := 1/2

/-- Configuration `EYE_CONFIG["triple_blink_window"]` (0.7 s). -/
def triple_blink_window : ℚ := 7/10

/-- Configuration `EYE_CONFIG["gaze_hold_time"]` (0.8 s). -/
def gaze_hold_time : ℚ := 4/5

/-- Configuration `EYE_CONFIG["gaze_cooldown"]` (1.2 s). -/
def gaze_cooldown : ℚ := 6/5

/-- Configuration `EYE_CONFIG["actions"]`. -/
def EYE_CONFIG_actions : List (String × String) :=
  [("left_gaze", "previous_tab"), ("right_gaze", "next_tab"),
   ("double_blink", "next_tab"), ("triple_blink", "show_desktop")]

/-- Blink-detection state of `IrisTracker`: `blink_count`, `blink_time`,
`eyes_closed`, `last_blink_time`. -/
structure BlinkState where
  blink_count : ℕ
  blink_time : Option ℚ
  eyes_closed : Bool
  last_blink_time : ℚ
  deriving DecidableEq

/-- Blink state set up in `IrisTracker.__init__` (`last_blink_time` is the
clock reading `t0` taken at construction). -/
def blink_init (t0 : ℚ) : BlinkState :=
  { blink_count := 0, blink_time := none, eyes_closed := false
    last_blink_time := t0 }

/-- Event emitted by `detect_blink` (`EYE_DOUBLE_BLINK` carrying action
`next_tab`, or `EYE_TRIPLE_BLINK` carrying action `show_desktop`). -/
inductive BlinkEmit where
  | double
  | triple
  deriving DecidableEq

/-- Input of one `detect_blink` call: the two eye-aspect ratios and the
frame clock reading. -/
structure BlinkTick where
  left_ear : ℚ
  right_ear : ℚ
  t : ℚ
  deriving DecidableEq

/-- Openness signal: the averaged EAR is below `blink_threshold`. -/
def tick_closed (x : BlinkTick) : Bool :=
  decide ((x.left_ear + x.right_ear) / 2 < blink_threshold)

/-- Translation of `IrisTracker.detect_blink`: on an open→closed transition
the counter is incremented, `blink_time` recorded, a double/triple event
possibly emitted, and `last_blink_time` updated; afterwards (every call) the
counter is reset once more than 1.0 s has passed since `blink_time`; finally
`eyes_closed` is updated. -/
def detect_blink (s : BlinkState) (x : BlinkTick) : BlinkState × List BlinkEmit :=
  let is_closed := tick_closed x
  let step1 : BlinkState × List BlinkEmit :=
    if is_closed = true ∧ s.eyes_closed = false then
      let c := s.blink_count + 1
      let out : List BlinkEmit :=
        if c = 2 ∧ x.t - s.last_blink_time < double_blink_window then
          [.double]
        else if c = 3 ∧ x.t - s.last_blink_time < triple_blink_window then
          [.triple]
        else []
      ({ blink_count := c, blink_time := some x.t, eyes_closed := s.eyes_closed
         last_blink_time := x.t }, out)
    else (s, [])
  let s1 := step1.1
  let s2 :=
    match s1.blink_time with
    | some bt =>
      if 1 < x.t - bt then { s1 with blink_count := 0, blink_time := none }
      else s1
    | none => s1
  ({ s2 with eyes_closed := is_closed }, step1.2)

/-- Fold of `detect_blink` over a frame sequence, collecting emissions. -/
def blink_run (s : BlinkState) (ts : List BlinkTick) :
    BlinkState × List BlinkEmit :=
  match ts with
  | [] => (s, [])
  | x :: rest =>
    let p := detect_blink s x
    let q := blink_run p.1 rest
    (q.1, p.2 ++ q.2)

/-- Absence of open→closed transitions in a tick list, given the openness
flag `e` (`eyes_closed`) holding before the list. -/
def no_new_blink (e : Bool) (ts : List BlinkTick) : Bool :=
  match ts with
  | [] => true
  | x :: rest => (!(tick_closed x) || e) && no_new_blink (tick_closed x) rest

/-- Per-classification-tick gaze direction, the result strings of
`IrisTracker.detect_gaze`. -/
inductive GazeDir where
  | LEFT
  | RIGHT
  | CENTER
  deriving DecidableEq

/-- Action-key string `f"{gaze.lower()}_gaze"` built in `process_frame`. -/
def gaze_key (g : GazeDir) : String :=
  match g with
  | .LEFT => "left_gaze"
  | .RIGHT => "right_gaze"
  | .CENTER => "center_gaze"

/-- Per-eye gaze-hold state of `IrisTracker` (shown for the left eye:
`last_left_gaze`, `left_gaze_start`, and the shared `last_action_time`).
The right-eye block of `process_frame` is the mirror image on its own
`last_right_gaze`/`right_gaze_start` with the same shared cooldown. -/
structure GazeState where
  last_gaze : GazeDir
  gaze_start : Option ℚ
  last_action_time : ℚ
  deriving DecidableEq

/-- Gaze state set up in `IrisTracker.__init__` (`last_action_time` is the
construction-time clock reading `t0`). -/
def gaze_init (t0 : ℚ) : GazeState :=
  { last_gaze := .CENTER, gaze_start := none, last_action_time := t0 }

/-- Gaze action event emitted by `process_frame` (`EYE_GAZE_LEFT` /
`EYE_GAZE_RIGHT` with the mapped action). -/
structure GazeEmit where
  dir : GazeDir
  action : String
  t : ℚ
  deriving DecidableEq

/-- Translation of the gaze-hold block of `IrisTracker.process_frame`
(lines 183–202, left eye): a changed direction resets the hold start; an
unchanged non-CENTER direction starts the hold timer on the next tick and,
once the hold has lasted `gaze_hold_time` and more than `gaze_cooldown` has
passed since the last gaze action, emits one event, records the action time
and clears the hold start. -/
def gaze_step (s : GazeState) (g : GazeDir) (t : ℚ) :
    GazeState × List GazeEmit :=
  if g ≠ s.last_gaze then
    ({ last_gaze := g, gaze_start := none
       last_action_time := s.last_action_time }, [])
  else if g ≠ .CENTER then
    match s.gaze_start with
    | none => ({ s with gaze_start := some t }, [])
    | some since =>
      if gaze_hold_time ≤ t - since then
        if gaze_cooldown < t - s.last_action_time then
          match EYE_CONFIG_actions.lookup (gaze_key g) with
          | some a =>
            ({ s with gaze_start := none, last_action_time := t }, [⟨g, a, t⟩])
          | none => (s, [])
        else (s, [])
      else (s, [])
  else (s, [])

/-- Fold of `gaze_step` over a classification-tick sequence. -/
def gaze_run (s : GazeState) (ts : List (GazeDir × ℚ)) :
    GazeState × List GazeEmit :=
  match ts with
  | [] => (s, [])
  | x :: rest =>
    let p := gaze_step s x.1 x.2
    let q := gaze_run p.1 rest
    (q.1, p.2 ++ q.2)

/-- Configuration `GESTURE_CONFIG["gesture_frames_required"]` (2). -/
def gesture_frames_required : ℕ := 2

/-- Configuration `GESTURE_CONFIG["action_cooldown"]` (0.3 s). -/
def action_cooldown : ℚ := 3/10

/-- Configuration `GESTURE_CONFIG["pause_cooldown"]` (0.8 s). -/
def pause_cooldown : ℚ := 4/5

/-- Configuration `GESTURE_CONFIG["actions"]`. -/
def GESTURE_CONFIG_actions : List (String × String) :=
  [("pinch", "copy"), ("peace", "paste"), ("scroll_up", "next_tab"),
   ("scroll_down", "previous_tab"), ("ok", "enter"), ("fist", "escape"),
   ("thumbs_up", "play_pause"), ("thumbs_down", "volume_down"),
   ("open_palm", "show_desktop"), ("pinky_up", "pause_toggle")]

/-- Classification string of the dedicated pause-toggle gesture. -/
def gesture_pinky_up : String := "pinky_up"

/-- Classification string of the neutral (no-op) gesture. -/
def gesture_neutral : String := "neutral"

/-- Per-tick state of `HandGestureController`: previous classification,
stability run length, the two cooldown clocks and the controller's local
pause flag (toggled only by the `p` key in its standalone loop). -/
structure GestureState where
  prev_gesture : Option String
  stable_count : ℕ
  last_action_time : ℚ
  last_pause_toggle_time : ℚ
  system_paused : Bool
  deriving DecidableEq

/-- Gesture state set up in `HandGestureController.__init__`. -/
def gesture_init : GestureState :=
  { prev_gesture := none, stable_count := 0, last_action_time := 0
    last_pause_toggle_time := 0, system_paused := false }

/-- Event emitted by the gesture module: the debounced `GESTURE_PAUSE`
event, or a `GESTURE_DETECTED` action event carrying the mapped action and
the classification. -/
inductive GestureEmit where
  | pauseToggle (t : ℚ)
  | action (name : String) (gesture : String) (t : ℚ)
  deriving DecidableEq

/-- Predicate selecting the action events among gesture emissions. -/
def GestureEmit.isAction : GestureEmit → Bool
  | .pauseToggle _ => false
  | .action _ _ _ => true

/-- Translation of the emission core of `HandGestureController.process_frame`
(lines 168–202) for one tick with a detected hand classified as `g` at clock
reading `t`: the stability counter is updated, then the pause-toggle block
runs (stable `pinky_up`, gated by `pause_cooldown`), then the action block
runs (stable, controller not locally paused, non-neutral, gated by
`action_cooldown`, emitting only when the classification maps to an
action). -/
def gesture_step (s : GestureState) (g : String) (t : ℚ) :
    GestureState × List GestureEmit :=
  let cnt := if some g = s.prev_gesture then s.stable_count + 1 else 1
  let stable : Bool := decide (gesture_frames_required ≤ cnt)
  let p1 : ℚ × List GestureEmit :=
    if stable = true ∧ g = gesture_pinky_up then
      if pause_cooldown < t - s.last_pause_toggle_time then
        (t, [.pauseToggle t])
      else (s.last_pause_toggle_time, [])
    else (s.last_pause_toggle_time, [])
  let p2 : ℚ × List GestureEmit :=
    if stable = true ∧ s.system_paused = false ∧ g ≠ gesture_neutral then
      if action_cooldown < t - s.last_action_time then
        match GESTURE_CONFIG_actions.lookup g with
        | some a => (t, [.action a g t])
        | none => (s.last_action_time, [])
      else (s.last_action_time, [])
    else (s.last_action_time, [])
  ({ prev_gesture := some g, stable_count := cnt, last_action_time := p2.1
     last_pause_toggle_time := p1.1, system_paused := s.system_paused },
    p1.2 ++ p2.2)

/-- C10: when the bounded queue is full, `emit_event` returns `false`,
raises nothing (it is a total function), does not enqueue the event, and
leaves the whole bus state — in particular `last_event_time` and
`active_sources` — exactly unchanged. -/
theorem emit_event_full_atomic (s : BusState) (e : Event)
    (h : max_queue_size ≤ s.event_queue.length) :
    emit_event s e = (s, false) := by
  simp [emit_event, h]

/-- Concrete event used to exercise the bus theorems. -/
def sample_event : Event :=
  { event_type := .GESTURE_DETECTED, source := src_gesture
    data_action := some ("copy"), timestamp := 5, priority := 2 }

/-- Bus whose queue holds `max_queue_size` events. -/
def full_bus : BusState :=
  { initial_bus with event_queue := List.replicate max_queue_size sample_event }

/-- Witness for C10 at a concrete full bus. -/
theorem emit_event_full_atomic_witness :
    max_queue_size ≤ full_bus.event_queue.length ∧
      emit_event full_bus sample_event = (full_bus, false) :=
  ⟨by simp [full_bus, initial_bus], emit_event_full_atomic full_bus sample_event
    (by simp [full_bus, initial_bus])⟩

/-- C5: conflict resolution: (1) every voice event passes
`_should_process_event`; (2) a non-voice event handled while less than
0.5 s has passed since the last emitted voice event is dropped with reason
`"conflict_resolution"` (assuming it survives the pause gate and is not the
pause-toggle event); (3) a non-voice event handled 0.5 s or more after the
last voice event is processed. -/
theorem voice_dominance :
    (∀ (now : ℚ) (s : BusState) (e : Event), e.source = src_voice →
      should_process_event now s e = true) ∧
    (∀ (env : BusEnv) (now : ℚ) (s : BusState) (e : Event),
      e.source ≠ src_voice → s.system_paused = false →
      e.event_type ≠ EventType.GESTURE_PAUSE →
      now - s.last_event_time src_voice < 1/2 →
      handle_event env now s e = (s, .dropped reason_conflict)) ∧
    (∀ (env : BusEnv) (now : ℚ) (s : BusState) (e : Event),
      e.source ≠ src_voice → s.system_paused = false →
      e.event_type ≠ EventType.GESTURE_PAUSE →
      1/2 ≤ now - s.last_event_time src_voice →
      (handle_event env now s e).2 = .processed) := by
  refine ⟨?_, ?_, ?_⟩
  · intro now s e hv
    simp [should_process_event, hv]
  · intro env now s e hv hp hk hw
    have hg : ¬(s.system_paused = true ∧ e.source ≠ src_voice) := by simp [hp]
    have hsp : should_process_event now s e = false := by
      unfold should_process_event
      rw [if_neg hv, if_pos hw]
    unfold handle_event
    rw [if_neg hg, if_neg hk, if_pos hsp]
  · intro env now s e hv hp hk hw
    have hg : ¬(s.system_paused = true ∧ e.source ≠ src_voice) := by simp [hp]
    have hsp : should_process_event now s e = true := by
      unfold should_process_event
      rw [if_neg hv, if_neg (not_lt.mpr hw),
        if_neg (by simp [allow_simultaneous_eye_gesture])]
    unfold handle_event
    rw [if_neg hg, if_neg hk, if_neg (by simp [hsp])]

/-- Environment with no registered bus action callbacks. -/
def no_callback_env : BusEnv := ⟨fun _ => false, false⟩

/-- Gesture event with no action payload, used by the C5 witness. -/
def c5_gesture_event : Event :=
  { event_type := .GESTURE_DETECTED, source := src_gesture
    data_action := none, timestamp := 3/10, priority := 2 }

/-- Voice event used by the C5 witness. -/
def c5_voice_event : Event :=
  { event_type := .VOICE_COMMAND, source := src_voice
    data_action := none, timestamp := 0, priority := 3 }

/-- Witness for C5: after a voice event at t = 0 (so
`last_event_time["voice"] = 0` in `initial_bus`), a gesture event handled at
t = 0.3 is dropped with reason `"conflict_resolution"` while one handled at
t = 0.6 is processed, and a voice event passes conflict resolution. -/
theorem voice_dominance_witness :
    should_process_event 0 initial_bus c5_voice_event = true ∧
      handle_event no_callback_env (3/10) initial_bus c5_gesture_event =
        (initial_bus, .dropped reason_conflict) ∧
      (handle_event no_callback_env (3/5) initial_bus c5_gesture_event).2 =
        .processed :=
  ⟨voice_dominance.1 0 initial_bus c5_voice_event (by with_unfolding_all decide),
    voice_dominance.2.1 no_callback_env (3/10) initial_bus c5_gesture_event
      (by with_unfolding_all decide) (by with_unfolding_all decide) (by with_unfolding_all decide) (by with_unfolding_all decide),
    voice_dominance.2.2 no_callback_env (3/5) initial_bus c5_gesture_event
      (by with_unfolding_all decide) (by with_unfolding_all decide) (by with_unfolding_all decide) (by with_unfolding_all decide)⟩

/-- C1 (amended): while `system_paused` is set, `_handle_event` drops every
non-voice event — including a gesture-sourced pause-toggle event, which hits
the pause gate of step 1 before the step-2 toggle check — with reason
`"system_paused"` and leaves the state unchanged; a voice-sourced event is
still handled: a voice pause-toggle event flips `paused` back to `false`,
and any other voice event is processed. -/
theorem pause_gating :
    (∀ (env : BusEnv) (now : ℚ) (s : BusState) (e : Event),
      s.system_paused = true → e.source ≠ src_voice →
      handle_event env now s e = (s, .dropped reason_system_paused)) ∧
    (∀ (env : BusEnv) (now : ℚ) (s : BusState) (e : Event),
      s.system_paused = true → e.source = src_voice →
      e.event_type = EventType.GESTURE_PAUSE →
      (handle_event env now s e).1.system_paused = false ∧
        (handle_event env now s e).2 = .toggled) ∧
    (∀ (env : BusEnv) (now : ℚ) (s : BusState) (e : Event),
      s.system_paused = true → e.source = src_voice →
      e.event_type ≠ EventType.GESTURE_PAUSE →
      (handle_event env now s e).2 = .processed) := by
  refine ⟨?_, ?_, ?_⟩
  · intro env now s e hp hv
    simp [handle_event, hp, hv]
  · intro env now s e hp hv hk
    simp [handle_event, hp, hv, hk]
  · intro env now s e hp hv hk
    simp [handle_event, should_process_event, hp, hv, hk]

/-- Gesture-sourced pause-toggle event, exactly as emitted by
`HandGestureController.process_frame`
(`emit_event(EventType.GESTURE_PAUSE, "gesture", {}, priority=3)`). -/
def gesture_pause_event : Event :=
  { event_type := .GESTURE_PAUSE, source := src_gesture
    data_action := none, timestamp := 1, priority := 3 }

/-- Reachable paused bus: the initial bus after handling one gesture
pause-toggle event. -/
def paused_bus : BusState :=
  (handle_event no_callback_env 1 initial_bus gesture_pause_event).1

/-- Counterexample for C1 as stated: at the reachable state `paused_bus`
(where `paused = true`), handling a second gesture-sourced pause-toggle
event does NOT flip `paused` back to `false`: the event is itself dropped by
the step-1 pause gate with reason `"system_paused"`, and `paused` stays
`true` — so the dedicated pause-toggle event does not bypass the pause
gate. -/
theorem pause_toggle_not_bypassing_gate :
    paused_bus.system_paused = true ∧
      (handle_event no_callback_env 2 paused_bus gesture_pause_event).2 =
        .dropped reason_system_paused ∧
      (handle_event no_callback_env 2 paused_bus gesture_pause_event).1.system_paused
        = true := by
  refine ⟨by with_unfolding_all decide, by with_unfolding_all decide, by with_unfolding_all decide⟩

/-- Voice-sourced pause-toggle event used by the C1 witness. -/
def voice_pause_event : Event :=
  { event_type := .GESTURE_PAUSE, source := src_voice
    data_action := none, timestamp := 2, priority := 3 }

/-- Witness for C1 (amended) at concrete reachable inputs. -/
theorem pause_gating_witness :
    paused_bus.system_paused = true ∧
      handle_event no_callback_env 2 paused_bus c5_gesture_event =
        (paused_bus, .dropped reason_system_paused) ∧
      (handle_event no_callback_env 2 paused_bus voice_pause_event).1.system_paused
        = false ∧
      (handle_event no_callback_env 2 paused_bus c5_voice_event).2 = .processed :=
  ⟨by with_unfolding_all decide,
    pause_gating.1 no_callback_env 2 paused_bus c5_gesture_event (by with_unfolding_all decide)
      (by with_unfolding_all decide),
    (pause_gating.2.1 no_callback_env 2 paused_bus voice_pause_event (by with_unfolding_all decide)
      (by with_unfolding_all decide) (by with_unfolding_all decide)).1,
    pause_gating.2.2 no_callback_env 2 paused_bus c5_voice_event (by with_unfolding_all decide)
      (by with_unfolding_all decide) (by with_unfolding_all decide)⟩

/-- C7 (amended): the consumer loop (`_handle_event`) never updates
`last_event_time` or `active_sources` — in any branch, dropped or not;
instead `emit_event` performs both updates at enqueue time for every
successfully enqueued event, before any pause gating or conflict resolution
is applied. -/
theorem state_update_at_emit :
    (∀ (env : BusEnv) (now : ℚ) (s : BusState) (e : Event),
      (handle_event env now s e).1.last_event_time = s.last_event_time ∧
        (handle_event env now s e).1.active_sources = s.active_sources) ∧
    (∀ (s : BusState) (e : Event), s.event_queue.length < max_queue_size →
      (emit_event s e).2 = true ∧
        (emit_event s e).1.last_event_time e.source = e.timestamp ∧
        (emit_event s e).1.active_sources e.source = true ∧
        (emit_event s e).1.event_queue = s.event_queue ++ [e]) := by
  constructor
  · intro env now s e
    unfold handle_event bus_execute_action
    constructor <;> (repeat' split) <;> rfl
  · intro s e h
    have h2 : ¬ max_queue_size ≤ s.event_queue.length := not_le.mpr h
    simp [emit_event, h2]

/-- Bus obtained by emitting `sample_event` (a gesture event, timestamp 5)
into the reachable paused bus. -/
def paused_bus_after_emit : BusState := (emit_event paused_bus sample_event).1

/-- Counterexample for C7 as stated: `sample_event` is dropped by the
consumer loop with reason `"system_paused"`, yet it did update
`last_event_time["gesture"]` (from 0 to its timestamp 5) and added
`"gesture"` to `active_sources` — the updates happened in `emit_event`, not
in step 4 of the consumer loop, so a dropped event does not leave
`lastEventTime` and `activeSources` unchanged. -/
theorem dropped_event_still_updates_state :
    (handle_event no_callback_env 5 paused_bus_after_emit sample_event).2 =
        .dropped reason_system_paused ∧
      paused_bus.last_event_time src_gesture = 0 ∧
      paused_bus.active_sources src_gesture = false ∧
      paused_bus_after_emit.last_event_time src_gesture = 5 ∧
      paused_bus_after_emit.active_sources src_gesture = true := by
  refine ⟨by with_unfolding_all decide, by with_unfolding_all decide, by with_unfolding_all decide, by with_unfolding_all decide, by with_unfolding_all decide⟩

/-- Witness for C7 (amended): `handle_event` leaves the tracking state of a
concrete bus unchanged, and a concrete successful `emit_event` updates it. -/
theorem state_update_at_emit_witness :
    ((handle_event no_callback_env 5 paused_bus_after_emit sample_event).1.last_event_time
        = paused_bus_after_emit.last_event_time ∧
      (handle_event no_callback_env 5 paused_bus_after_emit sample_event).1.active_sources
        = paused_bus_after_emit.active_sources) ∧
      initial_bus.event_queue.length < max_queue_size ∧
      (emit_event initial_bus sample_event).2 = true ∧
      (emit_event initial_bus sample_event).1.last_event_time sample_event.source
        = sample_event.timestamp :=
  ⟨state_update_at_emit.1 no_callback_env 5 paused_bus_after_emit sample_event,
    by with_unfolding_all decide,
    (state_update_at_emit.2 initial_bus sample_event (by with_unfolding_all decide)).1,
    (state_update_at_emit.2 initial_bus sample_event (by with_unfolding_all decide)).2.1⟩

/-- C3 (amended): an exception raised by the external input-injection call
(pyautogui hotkey/press/click) is caught inside the executor helper itself
and never propagates; but because the helper swallows it, `execute_action`
does not see it: the call proceeds, records the action, and returns `true`
(not `false`) — identically to a non-raising call. -/
theorem effect_exception_swallowed :
    (∀ (k : ExecKind) (raises : Bool), run_executor k raises = .ok ()) ∧
    (∀ (env : MapperEnv) (s : MapperState) (c : Call),
      check_cooldown s c.now = true → env.custom c.action_name = false →
      (ACTION_MAPPINGS.lookup c.action_name).isSome = true →
      execute_action env s { c with raises := true } =
          execute_action env s { c with raises := false } ∧
        (execute_action env s c).2 = true) := by
  constructor
  · intro k raises
    cases raises <;> rfl
  · intro env s c hc hcu hl
    obtain ⟨⟨kind, data⟩, hv⟩ := Option.isSome_iff_exists.mp hl
    constructor
    · simp [execute_action, hc, hcu, hv, run_executor, pyautogui_call]
    · cases hcr : c.raises <;>
        simp [execute_action, hc, hcu, hv, run_executor, pyautogui_call, hcr]

/-- Mapper environment with no registered custom handlers. -/
def no_custom_env : MapperEnv := ⟨fun _ => false⟩

/-- Standard action call whose pyautogui effect raises. -/
def raising_copy_call : Call := ⟨("copy"), src_voice, none, 10, true⟩

/-- Counterexample for C3 as stated: for this call the hotkey effect
raises, yet `execute_action` returns `true`, not `false` (the exception is
swallowed by `_execute_hotkey` before the outer handler can convert it). -/
theorem raising_effect_returns_true :
    raising_copy_call.raises = true ∧
      (execute_action no_custom_env mapper_init raising_copy_call).2 = true := by
  refine ⟨rfl, by with_unfolding_all decide⟩

/-- Witness for C3 (amended) at a concrete raising call. -/
theorem effect_exception_swallowed_witness :
    run_executor ExecKind.hotkey true = .ok () ∧
      check_cooldown mapper_init raising_copy_call.now = true ∧
      execute_action no_custom_env mapper_init
          { raising_copy_call with raises := true } =
        execute_action no_custom_env mapper_init
          { raising_copy_call with raises := false } ∧
      (execute_action no_custom_env mapper_init raising_copy_call).2 = true :=
  ⟨effect_exception_swallowed.1 ExecKind.hotkey true,
    by with_unfolding_all decide,
    (effect_exception_swallowed.2 no_custom_env mapper_init raising_copy_call
      (by with_unfolding_all decide) (by with_unfolding_all decide)
      (by with_unfolding_all decide)).1,
    (effect_exception_swallowed.2 no_custom_env mapper_init raising_copy_call
      (by with_unfolding_all decide) (by with_unfolding_all decide)
      (by with_unfolding_all decide)).2⟩

/-- Adding one record keeps the history within the 100-record capacity. -/
theorem record_action_length_le (h : List ActionRecord) (r : ActionRecord)
    (hl : h.length ≤ 100) : (record_action h r).length ≤ 100 := by
  simp only [record_action]
  by_cases h100 : 100 < (h ++ [r]).length
  · rw [if_pos h100]
    simp
    exact hl
  · rw [if_neg h100]
    simp at h100 ⊢
    omega

/-- Folding `_record_action` over a whole run from an empty history keeps
exactly the `min length 100` most recent records. -/
theorem foldl_record_drop (L : List ActionRecord) :
    ∀ (h : List ActionRecord), h.length ≤ 100 →
      L.foldl record_action h = (h ++ L).drop ((h ++ L).length - 100) := by
  induction L with
  | nil =>
    intro h hl
    simp [Nat.sub_eq_zero_of_le hl]
  | cons x L ih =>
    intro h hl
    rcases Nat.lt_or_ge h.length 100 with hlt | hge
    · have hrec : record_action h x = h ++ [x] := by
        unfold record_action
        rw [if_neg (by simp; omega)]
      have := ih (h ++ [x]) (by simp; omega)
      rw [List.foldl_cons, hrec, this]
      simp [List.append_assoc]
    · have h100 : h.length = 100 := le_antisymm hl hge
      obtain ⟨y, h2, rfl⟩ : ∃ y h2, h = y :: h2 := by
        cases h with
        | nil => simp at h100
        | cons y h2 => exact ⟨y, h2, rfl⟩
      have h2len : h2.length = 99 := by simpa using h100
      have hrec : record_action (y :: h2) x = h2 ++ [x] := by
        unfold record_action
        rw [if_pos (by simp; omega)]
        simp
      have := ih (h2 ++ [x]) (by simp; omega)
      rw [List.foldl_cons, hrec, this]
      have hL : ((h2 ++ [x]) ++ L).length - 100 = L.length := by
        simp; omega
      have hR : ((y :: h2) ++ x :: L).length - 100 = L.length + 1 := by
        simp; omega
      rw [hL, hR]
      simp [List.append_assoc]

/-- C9 (amended): the action history is a ring buffer of capacity 100 with
oldest-first eviction (its length never exceeds 100, and a whole run keeps
the 100 most recent records); for every limit n ≥ 1, `get_action_history`
returns exactly the `min n length` most recent records; in particular after
150 recorded actions `get_action_history 1000` returns exactly the 100 most
recent. (For n = 0 the Python slice `[-0:]` returns the whole history
instead of 0 records, so the claim's "for every n ≥ 0" fails at n = 0.) -/
theorem history_ring_buffer :
    (∀ (L : List ActionRecord), (L.foldl record_action []).length ≤ 100) ∧
    (∀ (h : List ActionRecord) (n : ℕ), 1 ≤ n →
      get_action_history h n = h.drop (h.length - n) ∧
        (get_action_history h n).length = min n h.length) ∧
    (∀ (L : List ActionRecord), L.length = 150 →
      get_action_history (L.foldl record_action []) 1000 = L.drop 50 ∧
        (get_action_history (L.foldl record_action []) 1000).length = 100) := by
  refine ⟨?_, ?_, ?_⟩
  · intro L
    rw [foldl_record_drop L [] (by simp)]
    simp
    omega
  · intro h n hn
    have hn0 : ¬ n = 0 := by omega
    refine ⟨by simp [get_action_history, hn0], ?_⟩
    simp [get_action_history, hn0]
    omega
  · intro L hL
    have hfold : L.foldl record_action [] = L.drop 50 := by
      rw [foldl_record_drop L [] (by simp)]
      simp [hL]
    have hlen : (L.drop 50).length = 100 := by simp [hL]
    rw [hfold]
    constructor
    · simp [get_action_history, hlen]
    · simp [get_action_history, hlen]

/-- Concrete history record. -/
def c9_record : ActionRecord := ⟨("copy"), src_voice, 1, none⟩

/-- Counterexample for C9 as stated: with one record in the history,
`get_action_history 0` returns that record (the whole history) rather than
`min 0 1 = 0` records. -/
theorem get_history_zero_returns_all :
    get_action_history [c9_record] 0 = [c9_record] ∧
      (get_action_history [c9_record] 0).length = 1 ∧
      min 0 [c9_record].length = 0 := by
  refine ⟨rfl, rfl, rfl⟩

/-- Concrete run of 150 recorded actions. -/
def c9_list : List ActionRecord := List.replicate 150 c9_record

/-- Witness for C9 (amended) at concrete inputs. -/
theorem history_ring_buffer_witness :
    (c9_list.foldl record_action []).length ≤ 100 ∧
      c9_list.length = 150 ∧
      (1 ≤ 3 ∧ get_action_history [c9_record] 3 =
        [c9_record].drop ([c9_record].length - 3)) ∧
      get_action_history (c9_list.foldl record_action []) 1000 =
        c9_list.drop 50 :=
  ⟨history_ring_buffer.1 c9_list,
    by unfold c9_list; rw [List.length_replicate],
    ⟨by omega, (history_ring_buffer.2.1 [c9_record] 3 (by omega)).1⟩,
    (history_ring_buffer.2.2 c9_list
      (by unfold c9_list; rw [List.length_replicate])).1⟩

/-- Cooldown-blocked calls return `False` with no side effect. -/
theorem execute_action_blocked (env : MapperEnv) (s : MapperState) (c : Call)
    (h : check_cooldown s c.now = false) : execute_action env s c = (s, false) := by
  simp [execute_action, h]

/-- Every successful call passed the cooldown check. -/
theorem execute_action_success_cooldown (env : MapperEnv) (s : MapperState)
    (c : Call) (h : (execute_action env s c).2 = true) :
    1/5 ≤ c.now - s.last_action_time := by
  by_cases hc : check_cooldown s c.now = true
  · simpa [check_cooldown] using hc
  · rw [execute_action_blocked env s c (Bool.not_eq_true _ ▸ hc)] at h
    simp at h

/-- One call either leaves the cooldown clock unchanged or sets it to the
call time. -/
theorem execute_action_last (env : MapperEnv) (s : MapperState) (c : Call) :
    (execute_action env s c).1.last_action_time = s.last_action_time ∨
      (execute_action env s c).1.last_action_time = c.now := by
  unfold execute_action
  repeat' split
  all_goals simp

/-- Unfolding a run one call at a time. -/
theorem mapper_run_cons (env : MapperEnv) (s : MapperState) (c : Call)
    (cs : List Call) :
    mapper_run env s (c :: cs) = mapper_run env (execute_action env s c).1 cs :=
  rfl

/-- The cooldown clock never drops below a bound that all call times
respect. -/
theorem mapper_run_last_ge (env : MapperEnv) (cs : List Call) :
    ∀ (s : MapperState) (b : ℚ), b ≤ s.last_action_time →
      (∀ c ∈ cs, b ≤ c.now) → b ≤ (mapper_run env s cs).last_action_time := by
  induction cs with
  | nil =>
    intro s b hs _
    simpa [mapper_run] using hs
  | cons c cs ih =>
    intro s b hs hall
    rw [mapper_run_cons]
    refine ih _ b ?_ (fun y hy => hall y (List.mem_cons_of_mem c hy))
    rcases execute_action_last env s c with h | h
    · rw [h]; exact hs
    · rw [h]; exact hall c (List.mem_cons_self c cs)

/-- A successful table-resolved call sets the cooldown clock to its call
time. -/
theorem execute_action_table_success (env : MapperEnv) (s : MapperState)
    (c : Call) (ht : is_table_call env c = true)
    (hs : (execute_action env s c).2 = true) :
    (execute_action env s c).1.last_action_time = c.now := by
  have ht2 : env.custom c.action_name = false ∧
      (ACTION_MAPPINGS.lookup c.action_name).isSome = true := by
    simpa [is_table_call] using ht
  obtain ⟨hcu, hl⟩ := ht2
  obtain ⟨⟨kind, data⟩, hv⟩ := Option.isSome_iff_exists.mp hl
  by_cases hc : check_cooldown s c.now = true
  · cases hcr : c.raises <;>
      simp [execute_action, hc, hcu, hv, run_executor, pyautogui_call, hcr]
  · rw [execute_action_blocked env s c (Bool.not_eq_true _ ▸ hc)] at hs
    simp at hs

/-- C2 (amended): the 0.2 s global cooldown separates successful executions
from the last successful TABLE-resolved execution: (1) a cooldown-blocked
call returns `false` with no side effect; (2) in any run from the initial
mapper state with nondecreasing call times, a successful execution following
a successful table-resolved execution is at least 0.2 s after it; (3) any
call arriving within 0.2 s of a successful table-resolved execution is
blocked. (Successful CUSTOM-handler executions do not refresh
`last_action_time`, so the claim's "no two successful executions, including
custom-handler ones, are less than 0.2 s apart" fails.) -/
theorem global_cooldown :
    (∀ (env : MapperEnv) (s : MapperState) (c : Call),
      check_cooldown s c.now = false → execute_action env s c = (s, false)) ∧
    (∀ (env : MapperEnv) (xs ys : List Call) (c d : Call),
      is_table_call env c = true →
      (execute_action env (mapper_run env mapper_init xs) c).2 = true →
      (∀ y ∈ ys, c.now ≤ y.now) → c.now ≤ d.now →
      (execute_action env
        (mapper_run env (execute_action env (mapper_run env mapper_init xs) c).1
          ys) d).2 = true →
      1/5 ≤ d.now - c.now) ∧
    (∀ (env : MapperEnv) (s : MapperState) (c d : Call),
      is_table_call env c = true → (execute_action env s c).2 = true →
      d.now - c.now < 1/5 →
      execute_action env (execute_action env s c).1 d =
        ((execute_action env s c).1, false)) := by
  refine ⟨fun env s c h => execute_action_blocked env s c h, ?_, ?_⟩
  · intro env xs ys c d ht hsucc hys hcd hdsucc
    have h2 : (execute_action env (mapper_run env mapper_init xs) c).1.last_action_time
        = c.now :=
      execute_action_table_success env _ c ht hsucc
    have h3 : c.now ≤ (mapper_run env
        (execute_action env (mapper_run env mapper_init xs) c).1 ys).last_action_time :=
      mapper_run_last_ge env ys _ c.now (le_of_eq h2.symm) hys
    have h4 := execute_action_success_cooldown env _ d hdsucc
    linarith
  · intro env s c d ht hsucc hlt
    have h2 : (execute_action env s c).1.last_action_time = c.now :=
      execute_action_table_success env s c ht hsucc
    refine execute_action_blocked env _ d ?_
    simp [check_cooldown, h2]
    linarith

/-- Mapper environment with one registered custom handler `"foo"`. -/
def custom_foo_env : MapperEnv := ⟨fun n => n == ("foo")⟩

/-- First custom call, at t = 10. -/
def foo_call_1 : Call := ⟨("foo"), src_gesture, none, 10, false⟩

/-- Second custom call, at t = 10.1. -/
def foo_call_2 : Call := ⟨("foo"), src_gesture, none, 101/10, false⟩

/-- Counterexample for C2 as stated: two custom-handler calls 0.1 s apart
both succeed — a successful custom execution does not update
`last_action_time`, so the very next call is not blocked. -/
theorem custom_actions_defeat_cooldown :
    (execute_action custom_foo_env mapper_init foo_call_1).2 = true ∧
      (execute_action custom_foo_env
        (execute_action custom_foo_env mapper_init foo_call_1).1 foo_call_2).2
        = true ∧
      foo_call_2.now - foo_call_1.now < 1/5 := by
  refine ⟨by with_unfolding_all decide, by with_unfolding_all decide,
    by with_unfolding_all decide⟩

/-- Table-resolved call at t = 10. -/
def copy_call_1 : Call := ⟨("copy"), src_voice, none, 10, false⟩

/-- Table-resolved call at t = 10.3. -/
def copy_call_2 : Call := ⟨("copy"), src_voice, none, 103/10, false⟩

/-- Table-resolved call at t = 10.1. -/
def copy_call_3 : Call := ⟨("copy"), src_voice, none, 101/10, false⟩

/-- Witness for C2 (amended) at concrete calls. -/
theorem global_cooldown_witness :
    check_cooldown { last_action_time := 10, action_history := [] }
        copy_call_3.now = false ∧
      execute_action no_custom_env
          { last_action_time := 10, action_history := [] } copy_call_3 =
        ({ last_action_time := 10, action_history := [] }, false) ∧
      (1:ℚ)/5 ≤ copy_call_2.now - copy_call_1.now ∧
      execute_action no_custom_env
          (execute_action no_custom_env mapper_init copy_call_1).1 copy_call_3 =
        ((execute_action no_custom_env mapper_init copy_call_1).1, false) :=
  ⟨by with_unfolding_all decide,
    global_cooldown.1 no_custom_env
      { last_action_time := 10, action_history := [] } copy_call_3
      (by with_unfolding_all decide),
    global_cooldown.2.1 no_custom_env [] [] copy_call_1 copy_call_2
      (by with_unfolding_all decide) (by with_unfolding_all decide)
      (by simp) (by with_unfolding_all decide) (by with_unfolding_all decide),
    global_cooldown.2.2 no_custom_env mapper_init copy_call_1 copy_call_3
      (by with_unfolding_all decide) (by with_unfolding_all decide)
      (by with_unfolding_all decide)⟩

/-- Mapped action of the pause gesture in `GESTURE_CONFIG["actions"]`. -/
theorem lookup_pinky_up :
    GESTURE_CONFIG_actions.lookup gesture_pinky_up = some ("pause_toggle") := by
  with_unfolding_all rfl

/-- C8 (amended): per tick of the gesture module, (1) a stable `pinky_up`
with both cooldowns elapsed emits the pause-toggle event AND additionally a
gesture action event with action `"pause_toggle"` (because `pinky_up` has an
entry in the action map and the action block does not exclude it); (2) a
stable, non-neutral, non-pause gesture with a mapped action and the 0.3 s
action cooldown elapsed emits exactly its action event and refreshes the
shared action clock; (3) within 0.3 s of the last gesture action of any
kind, no action event is emitted; (4) an unstable classification emits
nothing; (5) a neutral classification emits nothing. -/
theorem gesture_pause_dual_emission :
    (∀ (s : GestureState) (t : ℚ), s.prev_gesture = some gesture_pinky_up →
      1 ≤ s.stable_count → s.system_paused = false →
      pause_cooldown < t - s.last_pause_toggle_time →
      action_cooldown < t - s.last_action_time →
      (gesture_step s gesture_pinky_up t).2 =
        [.pauseToggle t, .action ("pause_toggle") gesture_pinky_up t]) ∧
    (∀ (s : GestureState) (g : String) (t : ℚ) (a : String),
      s.prev_gesture = some g → 1 ≤ s.stable_count → s.system_paused = false →
      g ≠ gesture_neutral → g ≠ gesture_pinky_up →
      action_cooldown < t - s.last_action_time →
      GESTURE_CONFIG_actions.lookup g = some a →
      (gesture_step s g t).2 = [.action a g t] ∧
        (gesture_step s g t).1.last_action_time = t) ∧
    (∀ (s : GestureState) (g : String) (t : ℚ),
      t - s.last_action_time ≤ action_cooldown →
      ∀ e ∈ (gesture_step s g t).2, e.isAction = false) ∧
    (∀ (s : GestureState) (g : String) (t : ℚ),
      (if some g = s.prev_gesture then s.stable_count + 1 else 1) <
        gesture_frames_required →
      (gesture_step s g t).2 = []) ∧
    (∀ (s : GestureState) (t : ℚ),
      (gesture_step s gesture_neutral t).2 = []) := by
  refine ⟨?_, ?_, ?_, ?_, ?_⟩
  · intro s t h1 h2 h3 h4 h5
    have hst : gesture_frames_required ≤ s.stable_count + 1 := by
      simp [gesture_frames_required]; omega
    have hpn : gesture_pinky_up ≠ gesture_neutral := by with_unfolding_all decide
    simp [gesture_step, h1, hst, h3, h4, h5, lookup_pinky_up, hpn]
  · intro s g t a h1 h2 h3 hne hnp h5 hlk
    have hst : gesture_frames_required ≤ s.stable_count + 1 := by
      simp [gesture_frames_required]; omega
    constructor <;> simp [gesture_step, h1, hst, h3, hne, hnp, h5, hlk]
  · intro s g t hcd
    have hncd : ¬ (action_cooldown < t - s.last_action_time) := not_lt.mpr hcd
    simp only [gesture_step, hncd, if_false]
    repeat' split
    all_goals simp [GestureEmit.isAction]
  · intro s g t hlt
    have hns : ¬ (gesture_frames_required ≤
        if some g = s.prev_gesture then s.stable_count + 1 else 1) :=
      not_le.mpr hlt
    simp [gesture_step, hns]
  · intro s t
    have hne : gesture_neutral ≠ gesture_pinky_up := by
      with_unfolding_all decide
    simp [gesture_step, hne]

/-- Gesture-module state about to confirm a second consecutive `pinky_up`
frame, with both cooldowns long expired. -/
def pinky_state : GestureState := ⟨some gesture_pinky_up, 1, 0, 0, false⟩

/-- Counterexample for C8 as stated: a stable `pinky_up` tick emits the
pause-toggle event AND an action event (action `"pause_toggle"`), so the
pause gesture does not emit only the pause-toggle event. -/
theorem pinky_up_also_emits_action :
    (gesture_step pinky_state gesture_pinky_up 10).2 =
        [.pauseToggle 10, .action ("pause_toggle") gesture_pinky_up 10] ∧
      ((gesture_step pinky_state gesture_pinky_up 10).2.filter
        GestureEmit.isAction).length = 1 := by
  refine ⟨by with_unfolding_all decide, by with_unfolding_all decide⟩

/-- Gesture-module state about to confirm a second consecutive `pinch`
frame. -/
def pinch_state : GestureState := ⟨some ("pinch"), 1, 0, 0, false⟩

/-- Gesture-module state whose action cooldown is still running at t=10.1. -/
def cooling_state : GestureState := ⟨some gesture_pinky_up, 1, 10, 0, false⟩

/-- Witness for C8 (amended) at concrete states. -/
theorem gesture_pause_dual_emission_witness :
    (gesture_step pinky_state gesture_pinky_up 10).2 =
        [.pauseToggle 10, .action ("pause_toggle") gesture_pinky_up 10] ∧
      (gesture_step pinch_state ("pinch") 10).2 =
        [.action ("copy") ("pinch") 10] ∧
      GestureEmit.isAction (.pauseToggle (101/10)) = false ∧
      (gesture_step pinch_state ("pinch") 10).1.last_action_time = 10 ∧
      (gesture_step gesture_init ("pinch") 5).2 = [] ∧
      (gesture_step pinky_state gesture_neutral 7).2 = [] :=
  ⟨gesture_pause_dual_emission.1 pinky_state 10 rfl
      (by with_unfolding_all decide) rfl (by with_unfolding_all decide) (by with_unfolding_all decide),
    (gesture_pause_dual_emission.2.1 pinch_state ("pinch") 10 ("copy") rfl
      (by with_unfolding_all decide) rfl (by with_unfolding_all decide)
      (by with_unfolding_all decide) (by with_unfolding_all decide)
      (by with_unfolding_all rfl)).1,
    gesture_pause_dual_emission.2.2.1 cooling_state gesture_pinky_up (101/10)
      (by with_unfolding_all decide) (.pauseToggle (101/10))
      (by with_unfolding_all decide),
    (gesture_pause_dual_emission.2.1 pinch_state ("pinch") 10 ("copy") rfl
      (by with_unfolding_all decide) rfl (by with_unfolding_all decide)
      (by with_unfolding_all decide) (by with_unfolding_all decide)
      (by with_unfolding_all rfl)).2,
    gesture_pause_dual_emission.2.2.2.1 gesture_init ("pinch") 5
      (by with_unfolding_all decide),
    gesture_pause_dual_emission.2.2.2.2 pinky_state 7⟩

/-- Splitting a gaze run at an append. -/
theorem gaze_run_append (A B : List (GazeDir × ℚ)) :
    ∀ s : GazeState, gaze_run s (A ++ B) =
      ((gaze_run (gaze_run s A).1 B).1,
        (gaze_run s A).2 ++ (gaze_run (gaze_run s A).1 B).2) := by
  induction A with
  | nil => intro s; simp [gaze_run]
  | cons x A ih =>
    intro s
    simp only [List.cons_append, gaze_run, List.append_eq]
    rw [ih]
    simp [List.append_assoc]

/-- Mapped action of the LEFT hold in `EYE_CONFIG["actions"]`. -/
theorem lookup_left_gaze :
    EYE_CONFIG_actions.lookup (gaze_key .LEFT) = some ("previous_tab") := by
  with_unfolding_all rfl

/-- Shape of one gaze step: either it emits nothing and keeps the action
clock, or it emits one event at the tick time, with the cooldown passed and
a hold of at least `gaze_hold_time` behind it, and sets the action clock to
the tick time. -/
theorem gaze_step_cases (s : GazeState) (g : GazeDir) (t : ℚ) :
    ((gaze_step s g t).2 = [] ∧
      (gaze_step s g t).1.last_action_time = s.last_action_time) ∨
    (∃ a, (gaze_step s g t).2 = [⟨g, a, t⟩] ∧
      gaze_cooldown < t - s.last_action_time ∧
      (gaze_step s g t).1.last_action_time = t ∧
      ∃ b, s.gaze_start = some b ∧ gaze_hold_time ≤ t - b) := by
  unfold gaze_step
  repeat' split
  all_goals simp_all

/-- One gaze step keeps the hold start, clears it, or sets it to the tick
time. -/
theorem gaze_step_start (s : GazeState) (g : GazeDir) (t : ℚ) :
    (gaze_step s g t).1.gaze_start = s.gaze_start ∨
      (gaze_step s g t).1.gaze_start = none ∨
      (gaze_step s g t).1.gaze_start = some t := by
  unfold gaze_step
  repeat' split
  all_goals simp

/-- Every gaze action is emitted more than `gaze_cooldown` after the action
clock of the state from which the run starts, and consecutive gaze actions
are more than `gaze_cooldown` apart. -/
theorem gaze_run_chain (ts : List (GazeDir × ℚ)) :
    ∀ s : GazeState, List.Chain (fun a b => gaze_cooldown < b - a)
      s.last_action_time ((gaze_run s ts).2.map GazeEmit.t) := by
  induction ts with
  | nil =>
    intro s
    simp [gaze_run]
  | cons x ts ih =>
    intro s
    have htail := ih (gaze_step s x.1 x.2).1
    rcases gaze_step_cases s x.1 x.2 with ⟨h1, h2⟩ | ⟨a, h1, hgap, h2, _⟩
    · rw [h2] at htail
      simpa [gaze_run, h1] using htail
    · rw [h2] at htail
      simp only [gaze_run, h1, List.singleton_append, List.map_cons]
      exact List.Chain.cons hgap htail

/-- Every emitted gaze event comes from some tick of the run: its time and
direction are that tick's. -/
theorem gaze_run_emit_mem (ts : List (GazeDir × ℚ)) :
    ∀ s : GazeState, ∀ e ∈ (gaze_run s ts).2,
      ∃ x ∈ ts, e.t = x.2 ∧ e.dir = x.1 := by
  induction ts with
  | nil =>
    intro s e he
    simp [gaze_run] at he
  | cons x ts ih =>
    intro s e he
    simp only [gaze_run] at he
    rcases List.mem_append.mp he with h | h
    · rcases gaze_step_cases s x.1 x.2 with ⟨h1, _⟩ | ⟨a, h1, _, _, _⟩
      · rw [h1] at h
        simp at h
      · rw [h1] at h
        simp at h
        exact ⟨x, List.mem_cons_self x ts, by simp [h]⟩
    · obtain ⟨y, hy, hye⟩ := ih (gaze_step s x.1 x.2).1 e h
      exact ⟨y, List.mem_cons_of_mem x hy, hye⟩

/-- When every tick time and the recorded hold start are at least `c`, every
emitted gaze event is at least `c + gaze_hold_time`. -/
theorem gaze_run_emit_lb (ts : List (GazeDir × ℚ)) :
    ∀ (s : GazeState) (c : ℚ), (∀ x ∈ ts, c ≤ x.2) →
      (∀ b, s.gaze_start = some b → c ≤ b) →
      ∀ e ∈ (gaze_run s ts).2, c + gaze_hold_time ≤ e.t := by
  induction ts with
  | nil =>
    intro s c _ _ e he
    simp [gaze_run] at he
  | cons x ts ih =>
    intro s c hts hstart e he
    simp only [gaze_run] at he
    rcases List.mem_append.mp he with h | h
    · rcases gaze_step_cases s x.1 x.2 with ⟨h1, _⟩ | ⟨a, h1, _, _, b, hb, hold⟩
      · rw [h1] at h
        simp at h
      · rw [h1] at h
        simp at h
        have hcb := hstart b hb
        rw [h]
        simp only []
        linarith
    · refine ih (gaze_step s x.1 x.2).1 c
        (fun y hy => hts y (List.mem_cons_of_mem x hy)) ?_ e h
      intro b hb
      rcases gaze_step_start s x.1 x.2 with hs | hs | hs
      · exact hstart b (by rw [← hs]; exact hb)
      · rw [hs] at hb
        cases hb
      · rw [hs] at hb
        injection hb with hb
        rw [← hb]
        exact (hts x (List.mem_cons_self x ts))

/-- During a LEFT hold whose ticks all stay within `gaze_hold_time` of the
recorded hold start, nothing fires and the state is unchanged. -/
theorem gaze_hold_short_silent (ts : List (GazeDir × ℚ)) :
    ∀ (s : GazeState) (b : ℚ), s.last_gaze = .LEFT → s.gaze_start = some b →
      (∀ x ∈ ts, x.1 = .LEFT ∧ x.2 - b < gaze_hold_time) →
      gaze_run s ts = (s, []) := by
  induction ts with
  | nil =>
    intro s b _ _ _
    simp [gaze_run]
  | cons x ts ih =>
    intro s b hlg hgs hall
    obtain ⟨hx1, hx2⟩ := hall x (List.mem_cons_self x ts)
    have hstep : gaze_step s x.1 x.2 = (s, []) := by
      rw [hx1]
      unfold gaze_step
      rw [if_neg (by simp [hlg]), if_pos (by simp)]
      simp only [hgs]
      rw [if_neg (not_le.mpr hx2)]
    simp only [gaze_run, hstep]
    simpa using ih s b hlg hgs (fun y hy => hall y (List.mem_cons_of_mem x hy))

/-- A LEFT tick on a state holding LEFT with a recorded start either leaves
the state exactly unchanged, or emits. -/
theorem gaze_step_left_hold (s : GazeState) (b t : ℚ)
    (hlg : s.last_gaze = .LEFT) (hgs : s.gaze_start = some b) :
    gaze_step s .LEFT t = (s, []) ∨ (gaze_step s .LEFT t).2 ≠ [] := by
  unfold gaze_step
  rw [if_neg (by simp [hlg]), if_pos (by simp)]
  simp only [hgs]
  by_cases h1 : gaze_hold_time ≤ t - b
  · rw [if_pos h1]
    by_cases h2 : gaze_cooldown < t - s.last_action_time
    · rw [if_pos h2]
      simp only [lookup_left_gaze]
      right
      simp
    · rw [if_neg h2]
      left
      rfl
  · rw [if_neg h1]
    left
    rfl

/-- A silent run of LEFT ticks from a LEFT-holding state with a recorded
start leaves the state exactly unchanged. -/
theorem gaze_silent_preserved (ts : List (GazeDir × ℚ)) :
    ∀ (s : GazeState) (b : ℚ), s.last_gaze = .LEFT → s.gaze_start = some b →
      (∀ x ∈ ts, x.1 = .LEFT) → (gaze_run s ts).2 = [] →
      gaze_run s ts = (s, []) := by
  induction ts with
  | nil =>
    intro s b _ _ _ _
    simp [gaze_run]
  | cons x ts ih =>
    intro s b hlg hgs hall hsil
    have hx1 := (hall x (List.mem_cons_self x ts))
    rcases gaze_step_left_hold s b x.2 hlg hgs with hstep | hne
    · have hstep2 : gaze_step s x.1 x.2 = (s, []) := by rw [hx1]; exact hstep
      simp only [gaze_run, hstep2] at hsil ⊢
      have hts : (gaze_run s ts).2 = [] := by simpa using hsil
      have hrec := ih s b hlg hgs (fun y hy => hall y (List.mem_cons_of_mem x hy)) hts
      rw [hrec]
      simp
    · have hne2 : (gaze_step s x.1 x.2).2 ≠ [] := by rw [hx1]; exact hne
      exfalso
      simp only [gaze_run] at hsil
      exact hne2 (List.append_eq_nil.mp (by simpa using hsil)).1

/-- A LEFT tick fires once the hold and the cooldown are both satisfied. -/
theorem gaze_step_fires (s : GazeState) (b t : ℚ)
    (hlg : s.last_gaze = .LEFT) (hgs : s.gaze_start = some b)
    (h1 : gaze_hold_time ≤ t - b) (h2 : gaze_cooldown < t - s.last_action_time) :
    (gaze_step s .LEFT t).2 = [⟨.LEFT, ("previous_tab"), t⟩] := by
  unfold gaze_step
  rw [if_neg (by simp [hlg]), if_pos (by simp)]
  simp only [hgs]
  rw [if_pos h1, if_pos h2]
  simp only [lookup_left_gaze]

/-- Unfolding a gaze run one tick at a time. -/
theorem gaze_run_cons (s : GazeState) (x : GazeDir × ℚ)
    (ts : List (GazeDir × ℚ)) :
    gaze_run s (x :: ts) =
      ((gaze_run (gaze_step s x.1 x.2).1 ts).1,
        (gaze_step s x.1 x.2).2 ++ (gaze_run (gaze_step s x.1 x.2).1 ts).2) :=
  rfl

/-- State of the tracker while holding LEFT with the hold timer started at
`u1` and the action clock at `t0`. -/
def gaze_holding (u1 t0 : ℚ) : GazeState :=
  { last_gaze := .LEFT, gaze_start := some u1, last_action_time := t0 }

/-- C6: gaze-hold timing. (1) From the tracker's initial state, a LEFT run
starting at `u0` whose ticks all stay within 0.79 s of `u0`, followed by a
return to CENTER, emits nothing (the hold timer only starts at the second
consecutive LEFT tick, so the accumulated hold stays below 0.8 s).
(2) A continuous LEFT hold `u0, u1, …, uk` whose last tick reaches
`gaze_hold_time` past `u1` — with the hold short enough that the 1.2 s gaze
cooldown cannot elapse a second time, and the initial cooldown satisfied —
emits exactly one event (single-shot). (3) In any run, consecutive gaze
actions are more than `gaze_cooldown` = 1.2 s apart (chained from the
state's action clock). (4) Every event emitted during a LEFT-only run is a
LEFT event. -/
theorem gaze_hold_timing :
    (∀ (t0 u0 v : ℚ) (us : List ℚ),
      (∀ u ∈ us, u0 ≤ u ∧ u - u0 ≤ 79/100) →
      (gaze_run (gaze_init t0)
        ((u0 :: us).map (fun u => (GazeDir.LEFT, u)) ++
          [(GazeDir.CENTER, v)])).2 = []) ∧
    (∀ (t0 u0 u1 uk : ℚ) (rest : List ℚ),
      u0 ≤ u1 → u1 ≤ uk → (∀ u ∈ rest, u1 ≤ u ∧ u ≤ uk) →
      gaze_hold_time ≤ uk - u1 → uk - u1 < 2 →
      t0 + gaze_cooldown < u1 + gaze_hold_time →
      ((gaze_run (gaze_init t0)
        ((GazeDir.LEFT, u0) :: (GazeDir.LEFT, u1) ::
          (rest.map (fun u => (GazeDir.LEFT, u)) ++
            [(GazeDir.LEFT, uk)]))).2).length = 1) ∧
    (∀ (s : GazeState) (ts : List (GazeDir × ℚ)),
      List.Chain (fun a b => gaze_cooldown < b - a) s.last_action_time
        ((gaze_run s ts).2.map GazeEmit.t)) ∧
    (∀ (s : GazeState) (ts : List (GazeDir × ℚ)),
      (∀ x ∈ ts, x.1 = GazeDir.LEFT) →
      ∀ e ∈ (gaze_run s ts).2, e.dir = GazeDir.LEFT) := by
  refine ⟨?_, ?_, fun s ts => gaze_run_chain ts s, ?_⟩
  · intro t0 u0 v us hus
    cases us with
    | nil => rfl
    | cons u1 rest =>
      have hpre : (gaze_run (gaze_init t0)
          ((u0 :: u1 :: rest).map (fun u => (GazeDir.LEFT, u)) ++
            [(GazeDir.CENTER, v)])).2 =
          (gaze_run (gaze_holding u1 t0)
            (rest.map (fun u => (GazeDir.LEFT, u)) ++
              [(GazeDir.CENTER, v)])).2 := rfl
      rw [hpre, gaze_run_append]
      have hA := gaze_hold_short_silent (rest.map (fun u => (GazeDir.LEFT, u)))
        (gaze_holding u1 t0) u1 rfl rfl ?_
      · rw [hA]
        rfl
      · intro x hx
        obtain ⟨u, hu, rfl⟩ := List.mem_map.mp hx
        refine ⟨rfl, ?_⟩
        have h1 := hus u1 (List.mem_cons_self u1 rest)
        have h2 := hus u (List.mem_cons_of_mem u1 hu)
        have hht : gaze_hold_time = 4/5 := rfl
        rw [hht]
        simp only []
        linarith [h1.1, h1.2, h2.1, h2.2]
  · intro t0 u0 u1 uk rest h01 h1k hrest hhold hshort hcool
    have hpre : (gaze_run (gaze_init t0)
        ((GazeDir.LEFT, u0) :: (GazeDir.LEFT, u1) ::
          (rest.map (fun u => (GazeDir.LEFT, u)) ++ [(GazeDir.LEFT, uk)]))).2 =
        (gaze_run (gaze_holding u1 t0)
          (rest.map (fun u => (GazeDir.LEFT, u)) ++
            [(GazeDir.LEFT, uk)])).2 := rfl
    rw [hpre]
    have hMmem : ∀ x ∈ rest.map (fun u => (GazeDir.LEFT, u)) ++
        [(GazeDir.LEFT, uk)], x.1 = GazeDir.LEFT ∧ u1 ≤ x.2 ∧ x.2 ≤ uk := by
      intro x hx
      rcases List.mem_append.mp hx with h | h
      · obtain ⟨u, hu, rfl⟩ := List.mem_map.mp h
        exact ⟨rfl, (hrest u hu).1, (hrest u hu).2⟩
      · simp at h
        subst h
        exact ⟨rfl, h1k, le_refl uk⟩
    have hne : (gaze_run (gaze_holding u1 t0)
        (rest.map (fun u => (GazeDir.LEFT, u)) ++ [(GazeDir.LEFT, uk)])).2 ≠
        [] := by
      intro hnil
      rw [gaze_run_append] at hnil
      simp only [] at hnil
      have hA2 : (gaze_run (gaze_holding u1 t0)
          (rest.map (fun u => (GazeDir.LEFT, u)))).2 = [] :=
        (List.append_eq_nil.mp (by simpa using hnil)).1
      have hB2 := (List.append_eq_nil.mp (by simpa using hnil)).2
      have hApres := gaze_silent_preserved (rest.map (fun u => (GazeDir.LEFT, u)))
        (gaze_holding u1 t0) u1 rfl rfl
        (fun x hx => (hMmem x (List.mem_append_left _ hx)).1) hA2
      rw [hApres] at hB2
      have hcool2 : gaze_cooldown <
          uk - (gaze_holding u1 t0).last_action_time := by
        have hht : gaze_hold_time = (4:ℚ)/5 := rfl
        have hcd : gaze_cooldown = (6:ℚ)/5 := rfl
        simp only [gaze_holding]
        rw [hcd]
        rw [hht] at hhold hcool
        linarith
      have hf := gaze_step_fires (gaze_holding u1 t0) u1 uk rfl rfl hhold hcool2
      rw [gaze_run_cons] at hB2
      simp only [] at hB2
      rw [hf] at hB2
      simp at hB2
    have hchain := gaze_run_chain
      (rest.map (fun u => (GazeDir.LEFT, u)) ++ [(GazeDir.LEFT, uk)])
      (gaze_holding u1 t0)
    have hlb := gaze_run_emit_lb
      (rest.map (fun u => (GazeDir.LEFT, u)) ++ [(GazeDir.LEFT, uk)])
      (gaze_holding u1 t0)
      u1 (fun x hx => (hMmem x hx).2.1)
      (fun b hb => by
        simp only [gaze_holding] at hb
        injection hb with hb
        rw [← hb])
    have hub : ∀ e ∈ (gaze_run (gaze_holding u1 t0)
        (rest.map (fun u => (GazeDir.LEFT, u)) ++ [(GazeDir.LEFT, uk)])).2,
        e.t ≤ uk := by
      intro e he
      obtain ⟨x, hxM, hte, _⟩ := gaze_run_emit_mem _ _ e he
      rw [hte]
      exact (hMmem x hxM).2.2
    cases hemit : (gaze_run (gaze_holding u1 t0)
        (rest.map (fun u => (GazeDir.LEFT, u)) ++ [(GazeDir.LEFT, uk)])).2 with
    | nil => exact absurd hemit hne
    | cons e1 tl =>
      cases tl with
      | nil => rfl
      | cons e2 tl2 =>
        exfalso
        have he1 : e1 ∈ (gaze_run (gaze_holding u1 t0)
            (rest.map (fun u => (GazeDir.LEFT, u)) ++ [(GazeDir.LEFT, uk)])).2 := by
          rw [hemit]
          exact List.mem_cons_self e1 (e2 :: tl2)
        have he2 : e2 ∈ (gaze_run (gaze_holding u1 t0)
            (rest.map (fun u => (GazeDir.LEFT, u)) ++ [(GazeDir.LEFT, uk)])).2 := by
          rw [hemit]
          exact List.mem_cons_of_mem e1 (List.mem_cons_self e2 tl2)
        have hb1 := hlb e1 he1
        have hub2 := hub e2 he2
        rw [hemit] at hchain
        simp only [List.map_cons] at hchain
        obtain ⟨hgap1, hchain2⟩ := List.chain_cons.mp hchain
        obtain ⟨hgap2, _⟩ := List.chain_cons.mp hchain2
        have hht : gaze_hold_time = (4:ℚ)/5 := rfl
        have hcd : gaze_cooldown = (6:ℚ)/5 := rfl
        rw [hht] at hb1 hhold
        rw [hcd] at hgap2
        linarith
  · intro s ts hts e he
    obtain ⟨x, hxM, _, hdir⟩ := gaze_run_emit_mem ts s e he
    rw [hdir]
    exact hts x hxM

/-- Witness for C6 at concrete tick sequences: holding LEFT from t=10 to
t=10.78 then returning to CENTER emits nothing; holding LEFT over
10, 10.1, 10.5, 11 emits exactly one event; gaze actions are chained more
than 1.2 s apart; LEFT-only runs emit LEFT events. -/
theorem gaze_hold_timing_witness :
    (∀ u ∈ ([101/10, 539/50] : List ℚ), (10:ℚ) ≤ u ∧ u - 10 ≤ 79/100) ∧
      (gaze_run (gaze_init 0)
        (((10:ℚ) :: [101/10, 539/50]).map (fun u => (GazeDir.LEFT, u)) ++
          [(GazeDir.CENTER, 12)])).2 = [] ∧
      ((gaze_run (gaze_init 0)
        ((GazeDir.LEFT, (10:ℚ)) :: (GazeDir.LEFT, 101/10) ::
          (([105/10] : List ℚ).map (fun u => (GazeDir.LEFT, u)) ++
            [(GazeDir.LEFT, 11)]))).2).length = 1 ∧
      List.Chain (fun a b : ℚ => gaze_cooldown < b - a)
        (gaze_init 0).last_action_time
        ((gaze_run (gaze_init 0)
          [(GazeDir.LEFT, 1), (GazeDir.LEFT, 2)]).2.map GazeEmit.t) ∧
      GazeEmit.dir ⟨GazeDir.LEFT, ("previous_tab"), 11⟩ = GazeDir.LEFT :=
  ⟨by with_unfolding_all decide,
    gaze_hold_timing.1 0 10 12 [101/10, 539/50] (by with_unfolding_all decide),
    gaze_hold_timing.2.1 0 10 (101/10) 11 [105/10]
      (by with_unfolding_all decide) (by with_unfolding_all decide)
      (by with_unfolding_all decide) (by with_unfolding_all decide)
      (by with_unfolding_all decide) (by with_unfolding_all decide),
    gaze_hold_timing.2.2.1 (gaze_init 0) [(GazeDir.LEFT, 1), (GazeDir.LEFT, 2)],
    gaze_hold_timing.2.2.2 (gaze_init 0)
      ((GazeDir.LEFT, (10:ℚ)) :: (GazeDir.LEFT, 101/10) ::
        (([105/10] : List ℚ).map (fun u => (GazeDir.LEFT, u)) ++
          [(GazeDir.LEFT, 11)]))
      (by with_unfolding_all decide) ⟨GazeDir.LEFT, ("previous_tab"), 11⟩
      (by with_unfolding_all decide)⟩

/-- Splitting a blink run at an append. -/
theorem blink_run_append (A B : List BlinkTick) :
    ∀ s : BlinkState, blink_run s (A ++ B) =
      ((blink_run (blink_run s A).1 B).1,
        (blink_run s A).2 ++ (blink_run (blink_run s A).1 B).2) := by
  induction A with
  | nil => intro s; simp [blink_run]
  | cons x A ih =>
    intro s
    simp only [List.cons_append, blink_run, List.append_eq]
    rw [ih]
    simp [List.append_assoc]

/-- Unfolding a blink run one frame at a time. -/
theorem blink_run_cons (s : BlinkState) (x : BlinkTick) (ts : List BlinkTick) :
    blink_run s (x :: ts) =
      ((blink_run (detect_blink s x).1 ts).1,
        (detect_blink s x).2 ++ (blink_run (detect_blink s x).1 ts).2) :=
  rfl

/-- An open frame with no recorded blink time leaves the state unchanged. -/
theorem detect_blink_open_none (s : BlinkState) (x : BlinkTick)
    (ho : tick_closed x = false) (he : s.eyes_closed = false)
    (hb : s.blink_time = none) : detect_blink s x = (s, []) := by
  obtain ⟨bc, bt, ec, lbt⟩ := s
  simp only [] at he hb
  subst he
  subst hb
  simp [detect_blink, ho]

/-- A closed frame while the eyes were already closed, within 1 s of the
recorded blink time, leaves the state unchanged. -/
theorem detect_blink_closed_closed (s : BlinkState) (x : BlinkTick) (b : ℚ)
    (hc : tick_closed x = true) (he : s.eyes_closed = true)
    (hb : s.blink_time = some b) (ht : x.t - b ≤ 1) :
    detect_blink s x = (s, []) := by
  obtain ⟨bc, bt, ec, lbt⟩ := s
  simp only [] at he hb
  subst he
  subst hb
  simp [detect_blink, hc, not_lt.mpr ht]

/-- An open frame within 1 s of the recorded blink time only reopens the
eyes. -/
theorem detect_blink_open_some (s : BlinkState) (x : BlinkTick) (b : ℚ)
    (ho : tick_closed x = false) (hb : s.blink_time = some b)
    (ht : x.t - b ≤ 1) :
    detect_blink s x = ({ s with eyes_closed := false }, []) := by
  obtain ⟨bc, bt, ec, lbt⟩ := s
  simp only [] at hb
  subst hb
  simp [detect_blink, ho, not_lt.mpr ht]

/-- An open→closed transition increments the counter, records the blink
time, emits according to the double/triple windows, and closes the eyes. -/
theorem detect_blink_transition (s : BlinkState) (x : BlinkTick)
    (hc : tick_closed x = true) (he : s.eyes_closed = false) :
    detect_blink s x =
      (⟨s.blink_count + 1, some x.t, true, x.t⟩,
        if s.blink_count + 1 = 2 ∧
            x.t - s.last_blink_time < double_blink_window then [.double]
        else if s.blink_count + 1 = 3 ∧
            x.t - s.last_blink_time < triple_blink_window then [.triple]
        else []) := by
  have hns : ¬ ((1:ℚ) < x.t - x.t) := by simp
  have hns2 : ¬ ((1:ℚ) < 0) := by norm_num
  simp [detect_blink, hc, he, hns, hns2]

/-- A frame that is not an open→closed transition emits nothing and sets
`eyes_closed` to the frame's openness. -/
theorem detect_blink_no_trans (s : BlinkState) (x : BlinkTick)
    (h : ¬ (tick_closed x = true ∧ s.eyes_closed = false)) :
    (detect_blink s x).2 = [] ∧
      (detect_blink s x).1.eyes_closed = tick_closed x := by
  simp only [detect_blink]
  rw [if_neg h]
  constructor
  · rfl
  · trivial

/-- A run of open frames from an open-eyed state with no recorded blink
time changes nothing. -/
theorem blink_run_all_open_none (ts : List BlinkTick) :
    ∀ s : BlinkState, s.eyes_closed = false → s.blink_time = none →
      (∀ x ∈ ts, tick_closed x = false) → blink_run s ts = (s, []) := by
  induction ts with
  | nil => intro s _ _ _; simp [blink_run]
  | cons x ts ih =>
    intro s he hb hall
    have hstep := detect_blink_open_none s x (hall x (List.mem_cons_self x ts))
      he hb
    simp only [blink_run, hstep]
    have hrec := ih s he hb (fun y hy => hall y (List.mem_cons_of_mem x hy))
    rw [hrec]
    simp

/-- A run of closed frames within 1 s of the recorded blink time changes
nothing. -/
theorem blink_run_all_closed (ts : List BlinkTick) :
    ∀ (s : BlinkState) (b : ℚ), s.eyes_closed = true → s.blink_time = some b →
      (∀ x ∈ ts, tick_closed x = true ∧ x.t - b ≤ 1) →
      blink_run s ts = (s, []) := by
  induction ts with
  | nil => intro s b _ _ _; simp [blink_run]
  | cons x ts ih =>
    intro s b he hb hall
    obtain ⟨h1, h2⟩ := hall x (List.mem_cons_self x ts)
    have hstep := detect_blink_closed_closed s x b h1 he hb h2
    simp only [blink_run, hstep]
    have hrec := ih s b he hb (fun y hy => hall y (List.mem_cons_of_mem x hy))
    rw [hrec]
    simp

/-- A run of open frames from an open-eyed state within 1 s of the recorded
blink time changes nothing. -/
theorem blink_run_open_some_aux (ts : List BlinkTick) :
    ∀ (s : BlinkState) (b : ℚ), s.eyes_closed = false →
      s.blink_time = some b →
      (∀ x ∈ ts, tick_closed x = false ∧ x.t - b ≤ 1) →
      blink_run s ts = (s, []) := by
  induction ts with
  | nil => intro s b _ _ _; simp [blink_run]
  | cons x ts ih =>
    intro s b he hb hall
    obtain ⟨h1, h2⟩ := hall x (List.mem_cons_self x ts)
    have hstep : detect_blink s x = (s, []) := by
      have h3 := detect_blink_open_some s x b h1 hb h2
      obtain ⟨bc, bt, ec, lbt⟩ := s
      simp only [] at he
      subst he
      simpa using h3
    simp only [blink_run, hstep]
    have hrec := ih s b he hb (fun y hy => hall y (List.mem_cons_of_mem x hy))
    rw [hrec]
    simp

/-- An open-frame prefix followed by open frames, all within 1 s of the
recorded blink time, from a closed-eyed state: the eyes reopen and nothing
else changes. -/
theorem blink_run_open_segment (x : BlinkTick) (ts : List BlinkTick)
    (s : BlinkState) (b : ℚ) (hb : s.blink_time = some b)
    (hx : tick_closed x = false ∧ x.t - b ≤ 1)
    (hts : ∀ y ∈ ts, tick_closed y = false ∧ y.t - b ≤ 1) :
    blink_run s (x :: ts) = ({ s with eyes_closed := false }, []) := by
  have hstep := detect_blink_open_some s x b hx.1 hb hx.2
  simp only [blink_run, hstep]
  have hrec := blink_run_open_some_aux ts { s with eyes_closed := false } b
    rfl (by simpa using hb) hts
  rw [hrec]
  simp

/-- A run containing no open→closed transition emits nothing (it may still
reset the counter). -/
theorem blink_run_no_new_silent (ts : List BlinkTick) :
    ∀ s : BlinkState, no_new_blink s.eyes_closed ts = true →
      (blink_run s ts).2 = [] := by
  induction ts with
  | nil => intro s _; simp [blink_run]
  | cons x ts ih =>
    intro s h
    simp only [no_new_blink, Bool.and_eq_true, Bool.or_eq_true,
      Bool.not_eq_true'] at h
    obtain ⟨h1, h2⟩ := h
    have hnt : ¬ (tick_closed x = true ∧ s.eyes_closed = false) := by
      rcases h1 with h1 | h1
      · rintro ⟨hc, _⟩
        rw [h1] at hc
        cases hc
      · rintro ⟨_, he⟩
        rw [h1] at he
        cases he
    obtain ⟨hsil, hec⟩ := detect_blink_no_trans s x hnt
    have hrec := ih (detect_blink s x).1 (by rw [hec]; exact h2)
    simp [blink_run, hsil, hrec]

/-- Emissions of a split run, given the first half's outcome. -/
theorem blink_run_append_emit (A B : List BlinkTick) (s s2 : BlinkState)
    (L : List BlinkEmit) (h : blink_run s A = (s2, L)) :
    (blink_run s (A ++ B)).2 = L ++ (blink_run s2 B).2 := by
  rw [blink_run_append, h]

/-- Emissions of a run, given the first frame's outcome. -/
theorem blink_run_cons_emit (x : BlinkTick) (ts : List BlinkTick)
    (s s2 : BlinkState) (L : List BlinkEmit)
    (h : detect_blink s x = (s2, L)) :
    (blink_run s (x :: ts)).2 = L ++ (blink_run s2 ts).2 := by
  rw [blink_run_cons, h]

/-- Core of C4 part 1: a run with exactly two open→closed transitions
`c1, c2`, with `c2.t - c1.t` inside the double-blink window, emits exactly
one double-blink event and nothing else. -/
theorem blink_double_core (t0 : ℚ) (P Mc Mo S : List BlinkTick)
    (o c1 c2 : BlinkTick)
    (hP : ∀ x ∈ P, tick_closed x = false)
    (hc1 : tick_closed c1 = true)
    (hMc : ∀ x ∈ Mc, tick_closed x = true ∧ c1.t ≤ x.t ∧ x.t ≤ c2.t)
    (hoX : tick_closed o = false ∧ c1.t ≤ o.t ∧ o.t ≤ c2.t)
    (hMo : ∀ x ∈ Mo, tick_closed x = false ∧ c1.t ≤ x.t ∧ x.t ≤ c2.t)
    (hc2 : tick_closed c2 = true)
    (hwin : c2.t - c1.t < double_blink_window)
    (hS : no_new_blink true S = true) :
    (blink_run (blink_init t0)
      (P ++ (c1 :: (Mc ++ ((o :: Mo) ++ (c2 :: S)))))).2 = [.double] := by
  have hdw : double_blink_window = (1:ℚ)/2 := rfl
  have hwin1 : c2.t - c1.t ≤ 1 := by rw [hdw] at hwin; linarith
  have hPrun : blink_run (blink_init t0) P = (blink_init t0, []) :=
    blink_run_all_open_none P (blink_init t0) rfl rfl hP
  have hstepc1 : detect_blink (blink_init t0) c1 =
      ((⟨1, some c1.t, true, c1.t⟩ : BlinkState), []) := by
    rw [detect_blink_transition (blink_init t0) c1 hc1 rfl]
    norm_num [blink_init]
  have hMcrun : blink_run (⟨1, some c1.t, true, c1.t⟩ : BlinkState) Mc =
      ((⟨1, some c1.t, true, c1.t⟩ : BlinkState), []) :=
    blink_run_all_closed Mc _ c1.t rfl rfl
      (fun x hx => ⟨(hMc x hx).1, by
        have h1 := (hMc x hx).2.1
        have h2 := (hMc x hx).2.2
        linarith⟩)
  have hMorun : blink_run (⟨1, some c1.t, true, c1.t⟩ : BlinkState) (o :: Mo) =
      ((⟨1, some c1.t, false, c1.t⟩ : BlinkState), []) :=
    blink_run_open_segment o Mo _ c1.t rfl
      ⟨hoX.1, by have h1 := hoX.2.1; have h2 := hoX.2.2; linarith⟩
      (fun x hx => ⟨(hMo x hx).1, by
        have h1 := (hMo x hx).2.1
        have h2 := (hMo x hx).2.2
        linarith⟩)
  have hstepc2 : detect_blink (⟨1, some c1.t, false, c1.t⟩ : BlinkState) c2 =
      ((⟨2, some c2.t, true, c2.t⟩ : BlinkState), [.double]) := by
    rw [detect_blink_transition _ c2 hc2 rfl]
    norm_num [hwin]
  have hSrun : (blink_run (⟨2, some c2.t, true, c2.t⟩ : BlinkState) S).2 = [] :=
    blink_run_no_new_silent S _ hS
  rw [blink_run_append_emit P _ _ _ _ hPrun,
    blink_run_cons_emit c1 _ _ _ _ hstepc1,
    blink_run_append_emit Mc _ _ _ _ hMcrun,
    blink_run_append_emit (o :: Mo) _ _ _ _ hMorun,
    blink_run_cons_emit c2 _ _ _ _ hstepc2,
    hSrun]
  simp

/-- Core of C4 part 2: a run with exactly three open→closed transitions
`c1, c2, c3`, with `c3.t - c1.t` inside the triple-blink window (cumulative
from the first), emits exactly one triple-blink event. -/
theorem blink_triple_core (t0 : ℚ) (P M1c M1o M2c M2o S : List BlinkTick)
    (o1 o2 c1 c2 c3 : BlinkTick)
    (hP : ∀ x ∈ P, tick_closed x = false)
    (hc1 : tick_closed c1 = true)
    (hM1c : ∀ x ∈ M1c, tick_closed x = true ∧ c1.t ≤ x.t ∧ x.t ≤ c2.t)
    (ho1 : tick_closed o1 = false ∧ c1.t ≤ o1.t ∧ o1.t ≤ c2.t)
    (hM1o : ∀ x ∈ M1o, tick_closed x = false ∧ c1.t ≤ x.t ∧ x.t ≤ c2.t)
    (hc2 : tick_closed c2 = true)
    (hM2c : ∀ x ∈ M2c, tick_closed x = true ∧ c2.t ≤ x.t ∧ x.t ≤ c3.t)
    (ho2 : tick_closed o2 = false ∧ c2.t ≤ o2.t ∧ o2.t ≤ c3.t)
    (hM2o : ∀ x ∈ M2o, tick_closed x = false ∧ c2.t ≤ x.t ∧ x.t ≤ c3.t)
    (hc3 : tick_closed c3 = true)
    (hwin : c3.t - c1.t < triple_blink_window)
    (hS : no_new_blink true S = true) :
    ((blink_run (blink_init t0)
      (P ++ (c1 :: (M1c ++ ((o1 :: M1o) ++
        (c2 :: (M2c ++ ((o2 :: M2o) ++ (c3 :: S))))))))).2).count .triple
      = 1 := by
  have htw : triple_blink_window = (7:ℚ)/10 := rfl
  have h12 : c1.t ≤ c2.t := le_trans ho1.2.1 ho1.2.2
  have h23 : c2.t ≤ c3.t := le_trans ho2.2.1 ho2.2.2
  have hwin7 : c3.t - c1.t < 7/10 := by rw [htw] at hwin; exact hwin
  have hPrun : blink_run (blink_init t0) P = (blink_init t0, []) :=
    blink_run_all_open_none P (blink_init t0) rfl rfl hP
  have hstepc1 : detect_blink (blink_init t0) c1 =
      ((⟨1, some c1.t, true, c1.t⟩ : BlinkState), []) := by
    rw [detect_blink_transition (blink_init t0) c1 hc1 rfl]
    norm_num [blink_init]
  have hM1crun : blink_run (⟨1, some c1.t, true, c1.t⟩ : BlinkState) M1c =
      ((⟨1, some c1.t, true, c1.t⟩ : BlinkState), []) :=
    blink_run_all_closed M1c _ c1.t rfl rfl
      (fun x hx => ⟨(hM1c x hx).1, by
        have h1 := (hM1c x hx).2.1
        have h2 := (hM1c x hx).2.2
        linarith⟩)
  have hM1orun : blink_run (⟨1, some c1.t, true, c1.t⟩ : BlinkState)
      (o1 :: M1o) = ((⟨1, some c1.t, false, c1.t⟩ : BlinkState), []) :=
    blink_run_open_segment o1 M1o _ c1.t rfl
      ⟨ho1.1, by have h1 := ho1.2.1; have h2 := ho1.2.2; linarith⟩
      (fun x hx => ⟨(hM1o x hx).1, by
        have h1 := (hM1o x hx).2.1
        have h2 := (hM1o x hx).2.2
        linarith⟩)
  have hstepc2 : detect_blink (⟨1, some c1.t, false, c1.t⟩ : BlinkState) c2 =
      ((⟨2, some c2.t, true, c2.t⟩ : BlinkState),
        if c2.t - c1.t < double_blink_window then [.double] else []) := by
    rw [detect_blink_transition _ c2 hc2 rfl]
    by_cases hX : c2.t - c1.t < double_blink_window
    · norm_num [hX]
    · norm_num [hX]
  have hM2crun : blink_run (⟨2, some c2.t, true, c2.t⟩ : BlinkState) M2c =
      ((⟨2, some c2.t, true, c2.t⟩ : BlinkState), []) :=
    blink_run_all_closed M2c _ c2.t rfl rfl
      (fun x hx => ⟨(hM2c x hx).1, by
        have h1 := (hM2c x hx).2.1
        have h2 := (hM2c x hx).2.2
        linarith⟩)
  have hM2orun : blink_run (⟨2, some c2.t, true, c2.t⟩ : BlinkState)
      (o2 :: M2o) = ((⟨2, some c2.t, false, c2.t⟩ : BlinkState), []) :=
    blink_run_open_segment o2 M2o _ c2.t rfl
      ⟨ho2.1, by have h1 := ho2.2.1; have h2 := ho2.2.2; linarith⟩
      (fun x hx => ⟨(hM2o x hx).1, by
        have h1 := (hM2o x hx).2.1
        have h2 := (hM2o x hx).2.2
        linarith⟩)
  have hstepc3 : detect_blink (⟨2, some c2.t, false, c2.t⟩ : BlinkState) c3 =
      ((⟨3, some c3.t, true, c3.t⟩ : BlinkState), [.triple]) := by
    rw [detect_blink_transition _ c3 hc3 rfl]
    have h3 : c3.t - c2.t < triple_blink_window := by
      rw [htw]
      linarith
    norm_num [h3]
  have hSrun : (blink_run (⟨3, some c3.t, true, c3.t⟩ : BlinkState) S).2 = [] :=
    blink_run_no_new_silent S _ hS
  rw [blink_run_append_emit P _ _ _ _ hPrun,
    blink_run_cons_emit c1 _ _ _ _ hstepc1,
    blink_run_append_emit M1c _ _ _ _ hM1crun,
    blink_run_append_emit (o1 :: M1o) _ _ _ _ hM1orun,
    blink_run_cons_emit c2 _ _ _ _ hstepc2,
    blink_run_append_emit M2c _ _ _ _ hM2crun,
    blink_run_append_emit (o2 :: M2o) _ _ _ _ hM2orun,
    blink_run_cons_emit c3 _ _ _ _ hstepc3,
    hSrun]
  by_cases hX : c2.t - c1.t < double_blink_window <;>
    simp [hX, List.count_append, List.count_cons]

/-- Core of C4 part 3: a non-transition frame more than 1 s after the
recorded blink time resets the counter. -/
theorem blink_reset_core (s : BlinkState) (x : BlinkTick) (b : ℚ)
    (hb : s.blink_time = some b)
    (hnt : ¬ (tick_closed x = true ∧ s.eyes_closed = false))
    (ht : 1 < x.t - b) :
    (detect_blink s x).1.blink_count = 0 ∧
      (detect_blink s x).1.blink_time = none := by
  simp [detect_blink, hnt, hb, ht]

/-- Core of C4 part 4: a single isolated blink emits nothing. -/
theorem blink_isolated_core (t0 : ℚ) (P S : List BlinkTick) (c1 : BlinkTick)
    (hP : ∀ x ∈ P, tick_closed x = false)
    (hc1 : tick_closed c1 = true)
    (hS : no_new_blink true S = true) :
    (blink_run (blink_init t0) (P ++ (c1 :: S))).2 = [] := by
  have hPrun : blink_run (blink_init t0) P = (blink_init t0, []) :=
    blink_run_all_open_none P (blink_init t0) rfl rfl hP
  have hstepc1 : detect_blink (blink_init t0) c1 =
      ((⟨1, some c1.t, true, c1.t⟩ : BlinkState), []) := by
    rw [detect_blink_transition (blink_init t0) c1 hc1 rfl]
    norm_num [blink_init]
  have hSrun : (blink_run (⟨1, some c1.t, true, c1.t⟩ : BlinkState) S).2 = [] :=
    blink_run_no_new_silent S _ hS
  rw [blink_run_append_emit P _ _ _ _ hPrun,
    blink_run_cons_emit c1 _ _ _ _ hstepc1, hSrun]
  simp

/-- C4: blink distinctness. (1) A run from the tracker's initial state with
exactly two open→closed transitions, the second within 0.5 s of the first,
emits exactly one double-blink event and no triple-blink event. (2) A run
with exactly three transitions, the third within 0.7 s of the first, emits
exactly one triple-blink event. (3) At a tick more than 1.0 s after the
recorded blink time with no new blink, the counter resets to 0. (4) A
single isolated blink emits nothing. -/
theorem blink_distinctness :
    (∀ (t0 : ℚ) (P Mc Mo S : List BlinkTick) (o c1 c2 : BlinkTick),
      (∀ x ∈ P, tick_closed x = false) → tick_closed c1 = true →
      (∀ x ∈ Mc, tick_closed x = true ∧ c1.t ≤ x.t ∧ x.t ≤ c2.t) →
      (tick_closed o = false ∧ c1.t ≤ o.t ∧ o.t ≤ c2.t) →
      (∀ x ∈ Mo, tick_closed x = false ∧ c1.t ≤ x.t ∧ x.t ≤ c2.t) →
      tick_closed c2 = true → c2.t - c1.t < double_blink_window →
      no_new_blink true S = true →
      (blink_run (blink_init t0)
        (P ++ (c1 :: (Mc ++ ((o :: Mo) ++ (c2 :: S)))))).2 = [.double]) ∧
    (∀ (t0 : ℚ) (P M1c M1o M2c M2o S : List BlinkTick)
      (o1 o2 c1 c2 c3 : BlinkTick),
      (∀ x ∈ P, tick_closed x = false) → tick_closed c1 = true →
      (∀ x ∈ M1c, tick_closed x = true ∧ c1.t ≤ x.t ∧ x.t ≤ c2.t) →
      (tick_closed o1 = false ∧ c1.t ≤ o1.t ∧ o1.t ≤ c2.t) →
      (∀ x ∈ M1o, tick_closed x = false ∧ c1.t ≤ x.t ∧ x.t ≤ c2.t) →
      tick_closed c2 = true →
      (∀ x ∈ M2c, tick_closed x = true ∧ c2.t ≤ x.t ∧ x.t ≤ c3.t) →
      (tick_closed o2 = false ∧ c2.t ≤ o2.t ∧ o2.t ≤ c3.t) →
      (∀ x ∈ M2o, tick_closed x = false ∧ c2.t ≤ x.t ∧ x.t ≤ c3.t) →
      tick_closed c3 = true → c3.t - c1.t < triple_blink_window →
      no_new_blink true S = true →
      ((blink_run (blink_init t0)
        (P ++ (c1 :: (M1c ++ ((o1 :: M1o) ++
          (c2 :: (M2c ++ ((o2 :: M2o) ++ (c3 :: S))))))))).2).count .triple
        = 1) ∧
    (∀ (s : BlinkState) (x : BlinkTick) (b : ℚ), s.blink_time = some b →
      ¬ (tick_closed x = true ∧ s.eyes_closed = false) → 1 < x.t - b →
      (detect_blink s x).1.blink_count = 0 ∧
        (detect_blink s x).1.blink_time = none) ∧
    (∀ (t0 : ℚ) (P S : List BlinkTick) (c1 : BlinkTick),
      (∀ x ∈ P, tick_closed x = false) → tick_closed c1 = true →
      no_new_blink true S = true →
      (blink_run (blink_init t0) (P ++ (c1 :: S))).2 = []) :=
  ⟨blink_double_core, blink_triple_core, blink_reset_core, blink_isolated_core⟩

/-- Closed frame (both EARs 0) at time `t`. -/
def closed_tick (t : ℚ) : BlinkTick := ⟨0, 0, t⟩

/-- Open frame (both EARs 1) at time `t`. -/
def open_tick (t : ℚ) : BlinkTick := ⟨1, 1, t⟩

/-- Witness for C4 at concrete frame sequences: two blinks 0.2 s apart give
exactly one double-blink; three blinks spanning 0.5 s give exactly one
triple-blink; a late frame resets the counter; an isolated blink emits
nothing. -/
theorem blink_distinctness_witness :
    (blink_run (blink_init 0)
        ([] ++ (closed_tick 10 :: ([] ++
          ((open_tick (101/10) :: []) ++ (closed_tick (102/10) :: [])))))).2
      = [.double] ∧
      ((blink_run (blink_init 0)
        ([] ++ (closed_tick 10 :: ([] ++ ((open_tick (102/10) :: []) ++
          (closed_tick (103/10) :: ([] ++ ((open_tick (104/10) :: []) ++
            (closed_tick (105/10) :: []))))))))).2).count .triple = 1 ∧
      (detect_blink (⟨1, some 10, true, 10⟩ : BlinkState)
        (closed_tick (115/10))).1.blink_count = 0 ∧
      (blink_run (blink_init 0)
        ([] ++ (closed_tick 10 :: [open_tick (105/10)]))).2 = [] :=
  ⟨blink_distinctness.1 0 [] [] [] [] (open_tick (101/10)) (closed_tick 10)
      (closed_tick (102/10)) (by with_unfolding_all decide)
      (by with_unfolding_all decide) (by with_unfolding_all decide)
      (by with_unfolding_all decide) (by with_unfolding_all decide)
      (by with_unfolding_all decide) (by with_unfolding_all decide)
      (by with_unfolding_all decide),
    blink_distinctness.2.1 0 [] [] [] [] [] [] (open_tick (102/10))
      (open_tick (104/10)) (closed_tick 10) (closed_tick (103/10))
      (closed_tick (105/10)) (by with_unfolding_all decide)
      (by with_unfolding_all decide) (by with_unfolding_all decide)
      (by with_unfolding_all decide) (by with_unfolding_all decide)
      (by with_unfolding_all decide) (by with_unfolding_all decide)
      (by with_unfolding_all decide) (by with_unfolding_all decide)
      (by with_unfolding_all decide) (by with_unfolding_all decide)
      (by with_unfolding_all decide),
    (blink_distinctness.2.2.1 (⟨1, some 10, true, 10⟩ : BlinkState)
      (closed_tick (115/10)) 10 rfl (by with_unfolding_all decide)
      (by with_unfolding_all decide)).1,
    blink_distinctness.2.2.2 0 [] [open_tick (105/10)] (closed_tick 10)
      (by with_unfolding_all decide) (by with_unfolding_all decide)
      (by with_unfolding_all decide)⟩

end AVI
